import Mathlib

/-!
Verification development for the post-office messaging core.

The repository contains two near-duplicate implementations of the same
message-routing component:

* `turtle_sent.py`     — messages are Python dicts (fields id/body/sender/read);
* `turtle_sent_two.py` — messages are instances of a `Message` class.

Both expose a `PostOffice` class with `__init__(usernames)`,
`send_message(sender, recipient, message_body, urgent=False)`,
`read_inbox(user, number_of_message=0)` and `search_inbox(user, part_message)`.

This file gives a shallow embedding of both implementations.  Python's
mutable state is modelled by explicit state passing: every operation that
can raise `KeyError` returns an `Option`, and an operation that mutates
the post office returns the new `PostOffice` value.  Python dicts (which
preserve insertion order and overwrite the value of an existing key in
place) are modelled as association lists with `dictGet` / `dictInsert`.
-/

/-- `leadsWith pat s` holds when the character list `pat` is an initial
segment of `s`.  Auxiliary to `occursIn`. -/
def leadsWith : List Char → List Char → Bool
  | [], _ => true
  | _ :: _, [] => false
  | p :: ps, c :: cs => p == c && leadsWith ps cs

/-- `occursIn pat s`: `pat` occurs as a contiguous run inside `s`.
Models Python's substring test `pat in s` (equivalently
`s.__contains__(pat)`): case-sensitive literal containment, with the
empty pattern occurring in every string. -/
def occursIn (pat : List Char) : List Char → Bool
  | [] => leadsWith pat []
  | c :: cs => leadsWith pat (c :: cs) || occursIn pat cs

/-- `strContains s pat` models the Python expression
`str(s).__contains__(pat)` used by `search_inbox` in both source files. -/
def strContains (s pat : String) : Bool :=
  occursIn pat.data s.data

/-- Lookup in a Python dict modelled as an association list: the value
stored under `k`, or `none` (Python: `KeyError`) when `k` is absent. -/
def dictGet {α : Type} : List (String × α) → String → Option α
  | [], _ => none
  | (k', v) :: rest, k => if k' = k then some v else dictGet rest k

/-- Insertion/update in a Python dict modelled as an association list:
if `k` is already a key its value is overwritten in place (keeping its
position, as Python dicts do); otherwise `(k, v)` is appended at the
back (Python dicts preserve insertion order). -/
def dictInsert {α : Type} : List (String × α) → String → α → List (String × α)
  | [], k, v => [(k, v)]
  | (k', v') :: rest, k, v =>
      if k' = k then (k, v) :: rest else (k', v') :: dictInsert rest k v

/-! ## First implementation: `turtle_sent.py` (dict-based messages)

A message is a Python dict `{'id': …, 'body': …, 'sender': …, 'read': …}`;
we embed it as the structure `Msg`. -/

structure Msg where
  id : Nat
  body : String
  sender : String
  read : Bool
deriving DecidableEq, Repr

structure PostOffice where
  message_id : Nat
  read : Bool
  boxes : List (String × List Msg)
deriving DecidableEq, Repr

/-- `PostOffice.__init__` of `turtle_sent.py`:
`self.message_id = 0`, `self.read = False`,
`self.boxes = {user: [] for user in usernames}`.  The dict comprehension
inserts the keys in list order; a duplicate username overwrites the
(empty) mailbox already stored under that key. -/
def PostOffice.init (usernames : List String) : PostOffice :=
  { message_id := 0
    read := false
    boxes := usernames.foldl (fun d user => dictInsert d user []) [] }

/-- `PostOffice.send_message` of `turtle_sent.py`.  The first statement
`user_box = self.boxes[recipient]` raises `KeyError` for an unknown
recipient, before any state is touched; we model that as `none`.
Otherwise the counter is incremented, the message dict is built with
`'read': self.read`, and it is inserted at the front (`insert(0, …)`)
when urgent, else appended; the new counter value is returned. -/
def PostOffice.send_message (po : PostOffice) (sender recipient message_body : String)
    (urgent : Bool) : Option (PostOffice × Nat) :=
  match dictGet po.boxes recipient with
  | none => none
  | some user_box =>
      let new_id := po.message_id + 1
      let message_details : Msg :=
        { id := new_id, body := message_body, sender := sender, read := po.read }
      let new_box := if urgent then message_details :: user_box
                     else user_box ++ [message_details]
      some ({ po with message_id := new_id,
                      boxes := dictInsert po.boxes recipient new_box }, new_id)

/-- The marking loop of `turtle_sent.py`'s `read_inbox`:
`for message in message_read: for i in range(len_message):
if self.boxes[user][i]['id'] == message['id']:
self.boxes[user][i]['read'] = True`.
Its cumulative effect sets `read = True` on exactly the box entries
whose id occurs among the selected ids. -/
def markByIds (sel_ids : List Nat) (box : List Msg) : List Msg :=
  box.map (fun m => if sel_ids.contains m.id then { m with read := true } else m)

/-- The selection step shared by the two `read_inbox` lines
`message_read = [message for message in self.boxes[user] if message['read'] is False]`
and
`message_read = message_read[0:number_of_message] if number_of_message > 0 else message_read`:
the unread messages in box order, truncated to the first
`number_of_message` of them when that argument is positive. -/
def selectUnread (number_of_message : Int) (box : List Msg) : List Msg :=
  let unread := box.filter (fun message => message.read == false)
  if number_of_message > 0 then unread.take number_of_message.toNat else unread

/-- `PostOffice.read_inbox` of `turtle_sent.py`.  `self.boxes[user]`
raises `KeyError` for an unknown user (modelled as `none`).  Otherwise
the unread messages are selected (`selectUnread`) and the marking loop
(`markByIds`) sets their `read` field to `True` in the stored box.
The Python function returns the selected dicts themselves, which alias
the mutated box entries, so the returned snapshots carry `read = True`;
we model this by returning the selected messages with `read := true`. -/
def PostOffice.read_inbox (po : PostOffice) (user : String) (number_of_message : Int) :
    Option (PostOffice × List Msg) :=
  match dictGet po.boxes user with
  | none => none
  | some box =>
      let message_read := selectUnread number_of_message box
      let new_box := markByIds (message_read.map Msg.id) box
      some ({ po with boxes := dictInsert po.boxes user new_box },
            message_read.map (fun m => { m with read := true }))

/-- `PostOffice.search_inbox` of `turtle_sent.py`:
`[message for message in self.boxes[user]
if str(message['body']).__contains__(part_message)]`.
`KeyError` for an unknown user is modelled as `none`; otherwise the
matching message dicts are returned in box order and no state changes. -/
def PostOffice.search_inbox (po : PostOffice) (user part_message : String) :
    Option (List Msg) :=
  (dictGet po.boxes user).map
    (fun box => box.filter (fun message => strContains message.body part_message))

/-! ## Second implementation: `turtle_sent_two.py` (object-based messages) -/

structure Message2 where
  message_id : Nat
  message_body : String
  message_sender : String
  message_read : Bool
deriving DecidableEq, Repr

/-- `Message.__init__` of `turtle_sent_two.py`: `message_read` starts `False`. -/
def Message2.make (m_id : Nat) (body sender : String) : Message2 :=
  { message_id := m_id, message_body := body, message_sender := sender,
    message_read := false }

/-- `Message.get_details` of `turtle_sent_two.py`.  The Python method
builds the string
`"Id: " + str(id) + ", Body: " + body + ", Sender: " + sender + ", Read: " + str(read)`
(and wraps it in a one-element set literal; the set layer carries no
information, so we model the detail snapshot as the string itself).
`str` of a Python bool prints `True` / `False`. -/
def Message2.get_details (m : Message2) : String :=
  "Id: " ++ toString m.message_id ++ ", Body: " ++ m.message_body ++
    ", Sender: " ++ m.message_sender ++ ", Read: " ++
    (if m.message_read then "True" else "False")

structure PostOffice2 where
  message_id : Nat
  boxes : List (String × List Message2)
deriving DecidableEq, Repr

/-- `PostOffice.__init__` of `turtle_sent_two.py` (no `self.read` field). -/
def PostOffice2.init (usernames : List String) : PostOffice2 :=
  { message_id := 0
    boxes := usernames.foldl (fun d user => dictInsert d user []) [] }

/-- `PostOffice.send_message` of `turtle_sent_two.py`: same flow as the
dict version, but the message is a `Message` object created with
`Message(self.message_id, message_body, sender)`, and the returned value
is `message_details.message_id`. -/
def PostOffice2.send_message (po : PostOffice2) (sender recipient message_body : String)
    (urgent : Bool) : Option (PostOffice2 × Nat) :=
  match dictGet po.boxes recipient with
  | none => none
  | some user_box =>
      let new_id := po.message_id + 1
      let message_details := Message2.make new_id message_body sender
      let new_box := if urgent then message_details :: user_box
                     else user_box ++ [message_details]
      some ({ message_id := new_id,
              boxes := dictInsert po.boxes recipient new_box },
            message_details.message_id)

/-- The marking loop of `turtle_sent_two.py`'s `read_inbox`:
`for message in message_read: message.set_read(True)`.  The selected
objects are the first `k` unread entries of the box (in box order), and
`set_read` mutates those very objects inside the box; in the value
model this marks the first `k` unread entries and leaves the rest. -/
def markUnreadUpTo : Nat → List Message2 → List Message2
  | _, [] => []
  | k, m :: rest =>
      if m.message_read then m :: markUnreadUpTo k rest
      else
        match k with
        | 0 => m :: rest
        | Nat.succ j => { m with message_read := true } :: markUnreadUpTo j rest

/-- The selection step of `turtle_sent_two.py`'s `read_inbox`, same two
lines as in the dict version but on `Message` objects. -/
def selectUnread2 (number_of_message : Int) (box : List Message2) : List Message2 :=
  let unread := box.filter (fun message => message.message_read == false)
  if number_of_message > 0 then unread.take number_of_message.toNat else unread

/-- `PostOffice.read_inbox` of `turtle_sent_two.py`.  As in the dict
version, the unread messages are selected in box order and truncated;
each selected object is mutated via `set_read(True)` (so the stored box
has them marked), and the function returns
`[message.get_details() for message in message_read]`, computed after
the mutation, so each detail string shows `Read: True`. -/
def PostOffice2.read_inbox (po : PostOffice2) (user : String) (number_of_message : Int) :
    Option (PostOffice2 × List String) :=
  match dictGet po.boxes user with
  | none => none
  | some box =>
      let message_read := selectUnread2 number_of_message box
      let marked := message_read.map (fun m => { m with message_read := true })
      let new_box := markUnreadUpTo message_read.length box
      some ({ po with boxes := dictInsert po.boxes user new_box },
            marked.map Message2.get_details)

/-- `PostOffice.search_inbox` of `turtle_sent_two.py`:
`[message.get_details() for message in self.boxes[user]
if str(message.message_body).__contains__(part_message)]`. -/
def PostOffice2.search_inbox (po : PostOffice2) (user part_message : String) :
    Option (List String) :=
  (dictGet po.boxes user).map
    (fun box => (box.filter
        (fun message => strContains message.message_body part_message)).map
      Message2.get_details)

/-! ## Sanity checks against the doctests and `show_example` runs -/

example :
    (PostOffice.init ["a", "b"]).send_message "a" "b" "Hello!" false =
      some ({ message_id := 1, read := false,
              boxes := [("a", []),
                        ("b", [{ id := 1, body := "Hello!", sender := "a", read := false }])] },
            1) := by
  decide

example :
    (PostOffice2.init ["a", "b"]).send_message "a" "b" "Hello!" false =
      some ({ message_id := 1,
              boxes := [("a", []),
                        ("b", [{ message_id := 1, message_body := "Hello!",
                                 message_sender := "a", message_read := false }])] },
            1) := by
  decide

example : strContains "Good bye, Newman." "Good" = true := by decide
example : strContains "Hello, Newman." "Good" = false := by decide
example : strContains "Hello, Newman." "" = true := by decide
example : strContains "Hello, Newman." "hello" = false := by decide

/-! ## Call sequences

`Op` is one client call against a post office; `step1` / `step2` run it
on the respective implementation, leaving the state unchanged when the
call raises (`KeyError` aborts the Python call before any mutation in
all three methods). -/

inductive Op where
  | send (sender recipient message_body : String) (urgent : Bool)
  | read (user : String) (number_of_message : Int)
  | search (user part_message : String)
deriving DecidableEq, Repr

def step1 (po : PostOffice) : Op → PostOffice
  | .send s r b urg =>
      match po.send_message s r b urg with
      | some result => result.1
      | none => po
  | .read u n =>
      match po.read_inbox u n with
      | some result => result.1
      | none => po
  | .search _ _ => po

def step2 (po : PostOffice2) : Op → PostOffice2
  | .send s r b urg =>
      match po.send_message s r b urg with
      | some result => result.1
      | none => po
  | .read u n =>
      match po.read_inbox u n with
      | some result => result.1
      | none => po
  | .search _ _ => po

def run1 (po : PostOffice) (ops : List Op) : PostOffice := ops.foldl step1 po

def run2 (po : PostOffice2) (ops : List Op) : PostOffice2 := ops.foldl step2 po

/-- The id returned by the call when it is a successful `send_message`
(first implementation); the empty list otherwise. -/
def opSentId1 (po : PostOffice) : Op → List Nat
  | .send s r b urg =>
      match po.send_message s r b urg with
      | some result => [result.2]
      | none => []
  | _ => []

/-- All ids returned by the successful `send_message` calls of a call
sequence, in call order (first implementation). -/
def sentIds1 (po : PostOffice) : List Op → List Nat
  | [] => []
  | op :: rest => opSentId1 po op ++ sentIds1 (step1 po op) rest

/-- The id returned by the call when it is a successful `send_message`
(second implementation); the empty list otherwise. -/
def opSentId2 (po : PostOffice2) : Op → List Nat
  | .send s r b urg =>
      match po.send_message s r b urg with
      | some result => [result.2]
      | none => []
  | _ => []

/-- All ids returned by the successful `send_message` calls of a call
sequence, in call order (second implementation). -/
def sentIds2 (po : PostOffice2) : List Op → List Nat
  | [] => []
  | op :: rest => opSentId2 po op ++ sentIds2 (step2 po op) rest

/-- `a :: a+1 :: … :: a+n-1`, the expected shape of the id stream. -/
def natRangeFrom (a : Nat) : Nat → List Nat
  | 0 => []
  | Nat.succ n => a :: natRangeFrom (a + 1) n

/-! ## Correspondence between the two implementations

A dict message and an object message carry the same four fields;
`Msg.toMessage2` is the field-for-field translation and `poConvert`
lifts it to whole post offices.  Observations normalise a call's result
to a common type: the returned id for `send_message`, and the rendered
detail snapshots (id, body, sender, read flag) for `read_inbox` /
`search_inbox`; `none` records a raised `KeyError`. -/

def Msg.toMessage2 (m : Msg) : Message2 :=
  { message_id := m.id, message_body := m.body,
    message_sender := m.sender, message_read := m.read }

def poConvert (po : PostOffice) : PostOffice2 :=
  { message_id := po.message_id
    boxes := po.boxes.map (fun p => (p.1, p.2.map Msg.toMessage2)) }

def obs1 (po : PostOffice) : Op → Option (Nat ⊕ List String)
  | .send s r b urg => (po.send_message s r b urg).map (fun result => Sum.inl result.2)
  | .read u n =>
      (po.read_inbox u n).map
        (fun result => Sum.inr (result.2.map (fun m => (Msg.toMessage2 m).get_details)))
  | .search u p =>
      (po.search_inbox u p).map
        (fun l => Sum.inr (l.map (fun m => (Msg.toMessage2 m).get_details)))

def obs2 (po : PostOffice2) : Op → Option (Nat ⊕ List String)
  | .send s r b urg => (po.send_message s r b urg).map (fun result => Sum.inl result.2)
  | .read u n => (po.read_inbox u n).map (fun result => Sum.inr result.2)
  | .search u p => (po.search_inbox u p).map Sum.inr

def traceObs1 (po : PostOffice) : List Op → List (Option (Nat ⊕ List String))
  | [] => []
  | op :: rest => obs1 po op :: traceObs1 (step1 po op) rest

def traceObs2 (po : PostOffice2) : List Op → List (Option (Nat ⊕ List String))
  | [] => []
  | op :: rest => obs2 po op :: traceObs2 (step2 po op) rest

/-- Invariant of every reachable first-implementation state: the shared
initial-read field is `false`, every stored id is at most the counter,
and ids are duplicate-free within each box. -/
def WF1 (po : PostOffice) : Prop :=
  po.read = false ∧
    ∀ p ∈ po.boxes, (p.2.map Msg.id).Nodup ∧ ∀ m ∈ p.2, m.id ≤ po.message_id

/-! ## Association-list (Python dict) lemmas -/

theorem dictGet_insert {α : Type} (d : List (String × α)) (k k' : String) (v : α) :
    dictGet (dictInsert d k v) k' = if k' = k then some v else dictGet d k' := by
  induction d with
  | nil =>
      by_cases h : k' = k
      · subst h; simp [dictInsert, dictGet]
      · simp [dictInsert, dictGet, h, Ne.symm h]
  | cons p rest ih =>
      obtain ⟨k0, v0⟩ := p
      by_cases h0 : k0 = k
      · subst h0
        by_cases h : k' = k0
        · subst h; simp [dictInsert, dictGet]
        · simp [dictInsert, dictGet, h, Ne.symm h]
      · by_cases h : k' = k0
        · subst h
          simp [dictInsert, dictGet, h0, Ne.symm h0]
        · simp [dictInsert, dictGet, h0, h, Ne.symm h, ih]

theorem dictGet_insert_self {α : Type} (d : List (String × α)) (k : String) (v : α) :
    dictGet (dictInsert d k v) k = some v := by
  simp [dictGet_insert]

/-- Re-storing the value already present under a key is a no-op. -/
theorem dictInsert_same {α : Type} (d : List (String × α)) (k : String) (v : α)
    (h : dictGet d k = some v) : dictInsert d k v = d := by
  induction d with
  | nil => simp [dictGet] at h
  | cons p rest ih =>
      obtain ⟨k0, v0⟩ := p
      by_cases h0 : k0 = k
      · subst h0
        simp [dictGet] at h
        simp [dictInsert, h]
      · simp [dictGet, h0] at h
        simp [dictInsert, h0, ih h]

theorem mem_dictInsert {α : Type} {d : List (String × α)} {k : String} {v : α}
    {p : String × α} (h : p ∈ dictInsert d k v) : p = (k, v) ∨ p ∈ d := by
  induction d with
  | nil => simpa [dictInsert] using h
  | cons q rest ih =>
      obtain ⟨k0, v0⟩ := q
      by_cases h0 : k0 = k
      · subst h0
        simp [dictInsert] at h
        rcases h with h | h
        · left; simp [h]
        · right; simp [h]
      · simp [dictInsert, h0] at h
        rcases h with h | h
        · right; simp [h]
        · rcases ih h with h' | h'
          · left; exact h'
          · right; simp [h']

theorem dictGet_mem {α : Type} {d : List (String × α)} {k : String} {v : α}
    (h : dictGet d k = some v) : (k, v) ∈ d := by
  induction d with
  | nil => simp [dictGet] at h
  | cons p rest ih =>
      obtain ⟨k0, v0⟩ := p
      by_cases h0 : k0 = k
      · subst h0
        simp [dictGet] at h
        simp [h]
      · simp [dictGet, h0] at h
        simp [ih h]

theorem dictGet_map_values {α β : Type} (f : α → β) (d : List (String × α)) (k : String) :
    dictGet (d.map (fun p => (p.1, f p.2))) k = (dictGet d k).map f := by
  induction d with
  | nil => simp [dictGet]
  | cons p rest ih =>
      obtain ⟨k0, v0⟩ := p
      by_cases h0 : k0 = k <;> simp [dictGet, h0, ih]

theorem dictInsert_map_values {α β : Type} (f : α → β) (d : List (String × α))
    (k : String) (v : α) :
    dictInsert (d.map (fun p => (p.1, f p.2))) k (f v) =
      (dictInsert d k v).map (fun p => (p.1, f p.2)) := by
  induction d with
  | nil => simp [dictInsert]
  | cons p rest ih =>
      obtain ⟨k0, v0⟩ := p
      by_cases h0 : k0 = k <;> simp [dictInsert, h0, ih]

/-- The key list after an insertion: unchanged when the key was present,
extended by the key at the back otherwise. -/
theorem dictInsert_keys {α : Type} (d : List (String × α)) (k : String) (v : α) :
    (dictInsert d k v).map Prod.fst =
      if k ∈ d.map Prod.fst then d.map Prod.fst else d.map Prod.fst ++ [k] := by
  induction d with
  | nil => simp [dictInsert]
  | cons p rest ih =>
      obtain ⟨k0, v0⟩ := p
      by_cases h0 : k0 = k
      · subst h0
        simp [dictInsert]
      · by_cases hk : k ∈ rest.map Prod.fst <;>
          simp [dictInsert, h0, Ne.symm h0, hk, ih]

/-! ## Substring characterisation -/

theorem leadsWith_iff (pat : List Char) : ∀ s : List Char,
    (leadsWith pat s = true ↔ ∃ r, s = pat ++ r) := by
  induction pat with
  | nil => intro s; simp [leadsWith]
  | cons p ps ih =>
      intro s
      cases s with
      | nil => simp [leadsWith]
      | cons c cs =>
          simp only [leadsWith, Bool.and_eq_true, beq_iff_eq, ih, List.cons_append]
          constructor
          · rintro ⟨rfl, r, rfl⟩
            exact ⟨r, rfl⟩
          · rintro ⟨r, h⟩
            injection h with h1 h2
            exact ⟨h1.symm, r, h2⟩

theorem occursIn_iff (pat : List Char) : ∀ s : List Char,
    (occursIn pat s = true ↔ ∃ l r, s = l ++ pat ++ r) := by
  intro s
  induction s with
  | nil =>
      simp only [occursIn, leadsWith_iff]
      constructor
      · rintro ⟨r, h⟩
        exact ⟨[], r, by simpa using h⟩
      · rintro ⟨l, r, h⟩
        refine ⟨r, ?_⟩
        rcases List.append_eq_nil.mp h.symm with ⟨h1, h2⟩
        rcases List.append_eq_nil.mp h1 with ⟨rfl, rfl⟩
        simpa using h
  | cons c cs ih =>
      simp only [occursIn, Bool.or_eq_true, leadsWith_iff, ih]
      constructor
      · rintro (⟨r, h⟩ | ⟨l, r, h⟩)
        · exact ⟨[], r, by simpa using h⟩
        · exact ⟨c :: l, r, by simp [h]⟩
      · rintro ⟨l, r, h⟩
        cases l with
        | nil =>
            left
            exact ⟨r, by simpa using h⟩
        | cons x xs =>
            right
            injection h with h1 h2
            exact ⟨xs, r, h2⟩

/-- `strContains s pat` holds exactly when `pat` occurs as a contiguous
(case-sensitive, literal) substring of `s`. -/
theorem strContains_iff (s pat : String) :
    strContains s pat = true ↔ ∃ l r, s.data = l ++ pat.data ++ r :=
  occursIn_iff pat.data s.data

theorem strContains_empty (s : String) : strContains s "" = true := by
  have : ∃ l r, s.data = l ++ ("" : String).data ++ r := ⟨[], s.data, by simp⟩
  exact (strContains_iff s "").mpr this

/-! ## The id stream `natRangeFrom` -/

theorem natRangeFrom_length (a n : Nat) : (natRangeFrom a n).length = n := by
  induction n generalizing a with
  | zero => simp [natRangeFrom]
  | succ n ih => simp [natRangeFrom, ih]

theorem natRangeFrom_le_of_mem : ∀ {a n x : Nat}, x ∈ natRangeFrom a n → a ≤ x := by
  intro a n
  induction n generalizing a with
  | zero => intro x h; simp [natRangeFrom] at h
  | succ n ih =>
      intro x h
      simp only [natRangeFrom, List.mem_cons] at h
      rcases h with rfl | h
      · exact Nat.le_refl x
      · exact Nat.le_of_succ_le (ih h)

theorem natRangeFrom_pairwise (a n : Nat) :
    List.Pairwise (fun x y => x < y) (natRangeFrom a n) := by
  induction n generalizing a with
  | zero => simp [natRangeFrom]
  | succ n ih =>
      exact List.Pairwise.cons
        (fun x hx => Nat.lt_of_succ_le (natRangeFrom_le_of_mem hx)) (ih (a + 1))

theorem natRangeFrom_append (a n m : Nat) :
    natRangeFrom a n ++ natRangeFrom (a + n) m = natRangeFrom a (n + m) := by
  induction n generalizing a with
  | zero => simp [natRangeFrom]
  | succ n ih =>
      have h1 : a + (n + 1) = (a + 1) + n := by omega
      have h2 : n + 1 + m = (n + m) + 1 := by omega
      simp only [natRangeFrom, List.cons_append, h1, h2]
      rw [ih (a + 1)]

/-! ## Unfolding lemmas for the operations -/

def freshMsg (po : PostOffice) (sender message_body : String) : Msg :=
  { id := po.message_id + 1, body := message_body, sender := sender, read := po.read }

theorem send_message_some {po : PostOffice} {r : String} {box : List Msg}
    (s b : String) (urg : Bool) (h : dictGet po.boxes r = some box) :
    po.send_message s r b urg =
      some ({ po with message_id := po.message_id + 1,
                      boxes := dictInsert po.boxes r
                        (if urg then freshMsg po s b :: box
                         else box ++ [freshMsg po s b]) },
            po.message_id + 1) := by
  simp [PostOffice.send_message, freshMsg, h]

theorem send_message_none {po : PostOffice} {r : String}
    (s b : String) (urg : Bool) (h : dictGet po.boxes r = none) :
    po.send_message s r b urg = none := by
  simp [PostOffice.send_message, h]

theorem read_inbox_some {po : PostOffice} {u : String} {box : List Msg}
    (n : Int) (h : dictGet po.boxes u = some box) :
    po.read_inbox u n =
      some ({ po with boxes := dictInsert po.boxes u
                        (markByIds ((selectUnread n box).map Msg.id) box) },
            (selectUnread n box).map (fun m => { m with read := true })) := by
  simp [PostOffice.read_inbox, h]

theorem read_inbox_none {po : PostOffice} {u : String}
    (n : Int) (h : dictGet po.boxes u = none) :
    po.read_inbox u n = none := by
  simp [PostOffice.read_inbox, h]

theorem search_inbox_some {po : PostOffice} {u : String} {box : List Msg}
    (p : String) (h : dictGet po.boxes u = some box) :
    po.search_inbox u p =
      some (box.filter (fun message => strContains message.body p)) := by
  simp [PostOffice.search_inbox, h]

theorem search_inbox_none {po : PostOffice} {u : String}
    (p : String) (h : dictGet po.boxes u = none) :
    po.search_inbox u p = none := by
  simp [PostOffice.search_inbox, h]

def freshMsg2 (po : PostOffice2) (sender message_body : String) : Message2 :=
  Message2.make (po.message_id + 1) message_body sender

theorem send_message2_some {po : PostOffice2} {r : String} {box : List Message2}
    (s b : String) (urg : Bool) (h : dictGet po.boxes r = some box) :
    po.send_message s r b urg =
      some ({ message_id := po.message_id + 1,
              boxes := dictInsert po.boxes r
                        (if urg then freshMsg2 po s b :: box
                         else box ++ [freshMsg2 po s b]) },
            po.message_id + 1) := by
  simp [PostOffice2.send_message, freshMsg2, Message2.make, h]

theorem send_message2_none {po : PostOffice2} {r : String}
    (s b : String) (urg : Bool) (h : dictGet po.boxes r = none) :
    po.send_message s r b urg = none := by
  simp [PostOffice2.send_message, h]

theorem read_inbox2_some {po : PostOffice2} {u : String} {box : List Message2}
    (n : Int) (h : dictGet po.boxes u = some box) :
    po.read_inbox u n =
      some ({ po with boxes := dictInsert po.boxes u
                        (markUnreadUpTo (selectUnread2 n box).length box) },
            ((selectUnread2 n box).map
                (fun m => { m with message_read := true })).map Message2.get_details) := by
  simp [PostOffice2.read_inbox, h]

theorem read_inbox2_none {po : PostOffice2} {u : String}
    (n : Int) (h : dictGet po.boxes u = none) :
    po.read_inbox u n = none := by
  simp [PostOffice2.read_inbox, h]

theorem search_inbox2_some {po : PostOffice2} {u : String} {box : List Message2}
    (p : String) (h : dictGet po.boxes u = some box) :
    po.search_inbox u p =
      some ((box.filter
          (fun message => strContains message.message_body p)).map Message2.get_details) := by
  simp [PostOffice2.search_inbox, h]

theorem search_inbox2_none {po : PostOffice2} {u : String}
    (p : String) (h : dictGet po.boxes u = none) :
    po.search_inbox u p = none := by
  simp [PostOffice2.search_inbox, h]

/-! ## The id counter along a call sequence -/

theorem step1_message_id (po : PostOffice) (op : Op) :
    (step1 po op).message_id = po.message_id + (opSentId1 po op).length := by
  cases op with
  | send s r b urg =>
      cases hg : dictGet po.boxes r with
      | none => simp [step1, opSentId1, send_message_none s b urg hg]
      | some box => simp [step1, opSentId1, send_message_some s b urg hg]
  | read u n =>
      cases hg : dictGet po.boxes u with
      | none => simp [step1, opSentId1, read_inbox_none n hg]
      | some box => simp [step1, opSentId1, read_inbox_some n hg]
  | search u p => simp [step1, opSentId1]

theorem step2_message_id (po : PostOffice2) (op : Op) :
    (step2 po op).message_id = po.message_id + (opSentId2 po op).length := by
  cases op with
  | send s r b urg =>
      cases hg : dictGet po.boxes r with
      | none => simp [step2, opSentId2, send_message2_none s b urg hg]
      | some box => simp [step2, opSentId2, send_message2_some s b urg hg]
  | read u n =>
      cases hg : dictGet po.boxes u with
      | none => simp [step2, opSentId2, read_inbox2_none n hg]
      | some box => simp [step2, opSentId2, read_inbox2_some n hg]
  | search u p => simp [step2, opSentId2]

theorem opSentId1_eq (po : PostOffice) (op : Op) :
    opSentId1 po op = natRangeFrom (po.message_id + 1) (opSentId1 po op).length := by
  cases op with
  | send s r b urg =>
      cases hg : dictGet po.boxes r with
      | none => simp [opSentId1, send_message_none s b urg hg, natRangeFrom]
      | some box => simp [opSentId1, send_message_some s b urg hg, natRangeFrom]
  | read u n => simp [opSentId1, natRangeFrom]
  | search u p => simp [opSentId1, natRangeFrom]

theorem opSentId2_eq (po : PostOffice2) (op : Op) :
    opSentId2 po op = natRangeFrom (po.message_id + 1) (opSentId2 po op).length := by
  cases op with
  | send s r b urg =>
      cases hg : dictGet po.boxes r with
      | none => simp [opSentId2, send_message2_none s b urg hg, natRangeFrom]
      | some box => simp [opSentId2, send_message2_some s b urg hg, natRangeFrom]
  | read u n => simp [opSentId2, natRangeFrom]
  | search u p => simp [opSentId2, natRangeFrom]

/-- The ids returned by the successful sends of any call sequence
are exactly the consecutive integers that continue the counter. -/
theorem sentIds1_eq (ops : List Op) : ∀ po : PostOffice,
    sentIds1 po ops = natRangeFrom (po.message_id + 1) (sentIds1 po ops).length := by
  induction ops with
  | nil => intro po; simp [sentIds1, natRangeFrom]
  | cons op rest ih =>
      intro po
      simp only [sentIds1, List.length_append]
      conv_lhs => rw [opSentId1_eq po op, ih (step1 po op)]
      rw [step1_message_id po op]
      have h1 : po.message_id + (opSentId1 po op).length + 1 =
          (po.message_id + 1) + (opSentId1 po op).length := by omega
      rw [h1, natRangeFrom_append]

theorem sentIds2_eq (ops : List Op) : ∀ po : PostOffice2,
    sentIds2 po ops = natRangeFrom (po.message_id + 1) (sentIds2 po ops).length := by
  induction ops with
  | nil => intro po; simp [sentIds2, natRangeFrom]
  | cons op rest ih =>
      intro po
      simp only [sentIds2, List.length_append]
      conv_lhs => rw [opSentId2_eq po op, ih (step2 po op)]
      rw [step2_message_id po op]
      have h1 : po.message_id + (opSentId2 po op).length + 1 =
          (po.message_id + 1) + (opSentId2 po op).length := by omega
      rw [h1, natRangeFrom_append]

theorem init_message_id (users : List String) :
    (PostOffice.init users).message_id = 0 := rfl

theorem init2_message_id (users : List String) :
    (PostOffice2.init users).message_id = 0 := rfl

/-- C1: for every call sequence against a freshly constructed post
office, the ids returned by the successful `send_message` calls are
pairwise distinct (strictly increasing in call order), whatever the
urgent flags and recipients, and the first id ever returned is 1 —
in both the dict-based and the object-based implementation. -/
theorem claim1_send_ids_increasing_from_one (users : List String) (ops : List Op) :
    (List.Pairwise (fun x y => x < y) (sentIds1 (PostOffice.init users) ops) ∧
      (sentIds1 (PostOffice.init users) ops ≠ [] →
        (sentIds1 (PostOffice.init users) ops).head? = some 1)) ∧
    (List.Pairwise (fun x y => x < y) (sentIds2 (PostOffice2.init users) ops) ∧
      (sentIds2 (PostOffice2.init users) ops ≠ [] →
        (sentIds2 (PostOffice2.init users) ops).head? = some 1)) := by
  constructor
  · constructor
    · rw [sentIds1_eq ops (PostOffice.init users)]
      exact natRangeFrom_pairwise _ _
    · intro hne
      rw [sentIds1_eq ops (PostOffice.init users)] at hne ⊢
      rw [init_message_id] at hne ⊢
      cases hlen : (sentIds1 (PostOffice.init users) ops).length with
      | zero => rw [hlen] at hne; simp [natRangeFrom] at hne
      | succ n => simp [natRangeFrom]
  · constructor
    · rw [sentIds2_eq ops (PostOffice2.init users)]
      exact natRangeFrom_pairwise _ _
    · intro hne
      rw [sentIds2_eq ops (PostOffice2.init users)] at hne ⊢
      rw [init2_message_id] at hne ⊢
      cases hlen : (sentIds2 (PostOffice2.init users) ops).length with
      | zero => rw [hlen] at hne; simp [natRangeFrom] at hne
      | succ n => simp [natRangeFrom]

/-- Witness for C1 at a concrete call sequence: one send to a
registered user, whose returned-id stream is `[1]`. -/
theorem claim1_send_ids_increasing_from_one_witness :
    (sentIds1 (PostOffice.init ["a"]) [Op.send "b" "a" "hi" false]).head? = some 1 ∧
    (sentIds2 (PostOffice2.init ["a"]) [Op.send "b" "a" "hi" false]).head? = some 1 :=
  ⟨(claim1_send_ids_increasing_from_one ["a"] [Op.send "b" "a" "hi" false]).1.2 (by decide),
   (claim1_send_ids_increasing_from_one ["a"] [Op.send "b" "a" "hi" false]).2.2 (by decide)⟩

/-! ## C6: unknown user -/

/-- C6: `send_message` with an unregistered recipient, and `read_inbox`
or `search_inbox` with an unregistered user, fail (Python: `KeyError`,
modelled as `none`) and cause no state mutation: the step relation
leaves the post office — counter and every mailbox — exactly as it was.
Holds in both implementations, since each method's first statement is
the failing `self.boxes[...]` lookup. -/
theorem claim6_unknown_user_error_no_mutation :
    (∀ (po : PostOffice) (s r b : String) (urg : Bool),
        dictGet po.boxes r = none →
          po.send_message s r b urg = none ∧ step1 po (Op.send s r b urg) = po) ∧
    (∀ (po : PostOffice) (u : String) (n : Int),
        dictGet po.boxes u = none →
          po.read_inbox u n = none ∧ step1 po (Op.read u n) = po) ∧
    (∀ (po : PostOffice) (u p : String),
        dictGet po.boxes u = none →
          po.search_inbox u p = none ∧ step1 po (Op.search u p) = po) ∧
    (∀ (po : PostOffice2) (s r b : String) (urg : Bool),
        dictGet po.boxes r = none →
          po.send_message s r b urg = none ∧ step2 po (Op.send s r b urg) = po) ∧
    (∀ (po : PostOffice2) (u : String) (n : Int),
        dictGet po.boxes u = none →
          po.read_inbox u n = none ∧ step2 po (Op.read u n) = po) ∧
    (∀ (po : PostOffice2) (u p : String),
        dictGet po.boxes u = none →
          po.search_inbox u p = none ∧ step2 po (Op.search u p) = po) := by
  refine ⟨?_, ?_, ?_, ?_, ?_, ?_⟩
  · intro po s r b urg h
    exact ⟨send_message_none s b urg h, by simp [step1, send_message_none s b urg h]⟩
  · intro po u n h
    exact ⟨read_inbox_none n h, by simp [step1, read_inbox_none n h]⟩
  · intro po u p h
    exact ⟨search_inbox_none p h, by simp [step1]⟩
  · intro po s r b urg h
    exact ⟨send_message2_none s b urg h, by simp [step2, send_message2_none s b urg h]⟩
  · intro po u n h
    exact ⟨read_inbox2_none n h, by simp [step2, read_inbox2_none n h]⟩
  · intro po u p h
    exact ⟨search_inbox2_none p h, by simp [step2]⟩

/-- Witness for C6: the user `"b"` is not registered in
`PostOffice.init ["a"]`, and each of the six conclusions holds there. -/
theorem claim6_unknown_user_error_no_mutation_witness :
    ((PostOffice.init ["a"]).send_message "x" "b" "m" false = none ∧
      step1 (PostOffice.init ["a"]) (Op.send "x" "b" "m" false) = PostOffice.init ["a"]) ∧
    ((PostOffice.init ["a"]).read_inbox "b" 0 = none ∧
      step1 (PostOffice.init ["a"]) (Op.read "b" 0) = PostOffice.init ["a"]) ∧
    ((PostOffice.init ["a"]).search_inbox "b" "q" = none ∧
      step1 (PostOffice.init ["a"]) (Op.search "b" "q") = PostOffice.init ["a"]) ∧
    ((PostOffice2.init ["a"]).send_message "x" "b" "m" false = none ∧
      step2 (PostOffice2.init ["a"]) (Op.send "x" "b" "m" false) = PostOffice2.init ["a"]) ∧
    ((PostOffice2.init ["a"]).read_inbox "b" 0 = none ∧
      step2 (PostOffice2.init ["a"]) (Op.read "b" 0) = PostOffice2.init ["a"]) ∧
    ((PostOffice2.init ["a"]).search_inbox "b" "q" = none ∧
      step2 (PostOffice2.init ["a"]) (Op.search "b" "q") = PostOffice2.init ["a"]) :=
  ⟨claim6_unknown_user_error_no_mutation.1 (PostOffice.init ["a"]) "x" "b" "m" false (by decide),
   claim6_unknown_user_error_no_mutation.2.1 (PostOffice.init ["a"]) "b" 0 (by decide),
   claim6_unknown_user_error_no_mutation.2.2.1 (PostOffice.init ["a"]) "b" "q" (by decide),
   claim6_unknown_user_error_no_mutation.2.2.2.1 (PostOffice2.init ["a"]) "x" "b" "m" false (by decide),
   claim6_unknown_user_error_no_mutation.2.2.2.2.1 (PostOffice2.init ["a"]) "b" 0 (by decide),
   claim6_unknown_user_error_no_mutation.2.2.2.2.2 (PostOffice2.init ["a"]) "b" "q" (by decide)⟩

/-! ## C3: urgent messages go to the front -/

/-- C3: an urgent send inserts the new message at position 0 of the
recipient's mailbox while a non-urgent send appends it at the back (both
implementations); consequently, after sending urgent U1 then urgent U2
to the same mailbox, `read_inbox` with no limit returns U2 before U1 —
they are the first two results. -/
theorem claim3_urgent_insert_front :
    (∀ (po : PostOffice) (s r b : String) (box : List Msg),
        dictGet po.boxes r = some box →
          (∃ po', po.send_message s r b true = some (po', po.message_id + 1) ∧
              dictGet po'.boxes r = some (freshMsg po s b :: box)) ∧
          (∃ po', po.send_message s r b false = some (po', po.message_id + 1) ∧
              dictGet po'.boxes r = some (box ++ [freshMsg po s b]))) ∧
    (∀ (po : PostOffice2) (s r b : String) (box : List Message2),
        dictGet po.boxes r = some box →
          (∃ po', po.send_message s r b true = some (po', po.message_id + 1) ∧
              dictGet po'.boxes r = some (freshMsg2 po s b :: box)) ∧
          (∃ po', po.send_message s r b false = some (po', po.message_id + 1) ∧
              dictGet po'.boxes r = some (box ++ [freshMsg2 po s b]))) ∧
    (∀ (po po1 po2 : PostOffice) (u s1 b1 s2 b2 : String) (box : List Msg) (i1 i2 : Nat),
        po.read = false →
        dictGet po.boxes u = some box →
        po.send_message s1 u b1 true = some (po1, i1) →
        po1.send_message s2 u b2 true = some (po2, i2) →
          ∃ rest, (po2.read_inbox u 0).map Prod.snd =
            some ({ id := i2, body := b2, sender := s2, read := true } ::
                  { id := i1, body := b1, sender := s1, read := true } :: rest)) ∧
    (∀ (po po1 po2 : PostOffice2) (u s1 b1 s2 b2 : String) (box : List Message2) (i1 i2 : Nat),
        dictGet po.boxes u = some box →
        po.send_message s1 u b1 true = some (po1, i1) →
        po1.send_message s2 u b2 true = some (po2, i2) →
          ∃ rest, (po2.read_inbox u 0).map Prod.snd =
            some (Message2.get_details
                    { message_id := i2, message_body := b2,
                      message_sender := s2, message_read := true } ::
                  Message2.get_details
                    { message_id := i1, message_body := b1,
                      message_sender := s1, message_read := true } :: rest)) := by
  refine ⟨?_, ?_, ?_, ?_⟩
  · intro po s r b box h
    exact ⟨⟨_, send_message_some s b true h, by simp [dictGet_insert_self]⟩,
           ⟨_, send_message_some s b false h, by simp [dictGet_insert_self]⟩⟩
  · intro po s r b box h
    exact ⟨⟨_, send_message2_some s b true h, by simp [dictGet_insert_self]⟩,
           ⟨_, send_message2_some s b false h, by simp [dictGet_insert_self]⟩⟩
  · intro po po1 po2 u s1 b1 s2 b2 box i1 i2 hread hbox h1 h2
    rw [send_message_some s1 b1 true hbox] at h1
    simp only [if_true, Option.some.injEq, Prod.mk.injEq] at h1
    obtain ⟨h1po, rfl⟩ := h1
    have hbox1 : dictGet po1.boxes u = some (freshMsg po s1 b1 :: box) := by
      rw [← h1po]; simp [dictGet_insert_self]
    have hread1 : po1.read = false := by rw [← h1po]; exact hread
    rw [send_message_some s2 b2 true hbox1] at h2
    simp only [if_true, Option.some.injEq, Prod.mk.injEq] at h2
    obtain ⟨h2po, rfl⟩ := h2
    have hbox2 : dictGet po2.boxes u =
        some (freshMsg po1 s2 b2 :: freshMsg po s1 b1 :: box) := by
      rw [← h2po]; simp [dictGet_insert_self]
    refine ⟨(box.filter (fun m => m.read == false)).map
        (fun m => { m with read := true }), ?_⟩
    rw [read_inbox_some 0 hbox2]
    simp [selectUnread, freshMsg, hread, hread1]
  · intro po po1 po2 u s1 b1 s2 b2 box i1 i2 hbox h1 h2
    rw [send_message2_some s1 b1 true hbox] at h1
    simp only [if_true, Option.some.injEq, Prod.mk.injEq] at h1
    obtain ⟨h1po, rfl⟩ := h1
    have hbox1 : dictGet po1.boxes u = some (freshMsg2 po s1 b1 :: box) := by
      rw [← h1po]; simp [dictGet_insert_self]
    rw [send_message2_some s2 b2 true hbox1] at h2
    simp only [if_true, Option.some.injEq, Prod.mk.injEq] at h2
    obtain ⟨h2po, rfl⟩ := h2
    have hbox2 : dictGet po2.boxes u =
        some (freshMsg2 po1 s2 b2 :: freshMsg2 po s1 b1 :: box) := by
      rw [← h2po]; simp [dictGet_insert_self]
    refine ⟨((box.filter (fun m => m.message_read == false)).map
        (fun m => { m with message_read := true })).map Message2.get_details, ?_⟩
    rw [read_inbox2_some 0 hbox2]
    simp [selectUnread2, freshMsg2, Message2.make]

/-- Witness for C3 at a concrete run: two urgent sends to `"a"`;
reading with no limit lists the id-2 message before the id-1 message. -/
theorem claim3_urgent_insert_front_witness :
    ∃ rest, ((step1 (step1 (PostOffice.init ["a"]) (Op.send "s1" "a" "b1" true))
        (Op.send "s2" "a" "b2" true)).read_inbox "a" 0).map Prod.snd =
      some ({ id := 2, body := "b2", sender := "s2", read := true } ::
            { id := 1, body := "b1", sender := "s1", read := true } :: rest) := by
  have h := claim3_urgent_insert_front.2.2.1 (PostOffice.init ["a"])
    (step1 (PostOffice.init ["a"]) (Op.send "s1" "a" "b1" true))
    (step1 (step1 (PostOffice.init ["a"]) (Op.send "s1" "a" "b1" true))
      (Op.send "s2" "a" "b2" true))
    "a" "s1" "b1" "s2" "b2" [] 1 2 (by decide) (by decide) (by decide) (by decide)
  exact h

/-! ## C5: search is exact and non-mutating -/

/-- C5: for every registered user and search string, `search_inbox`
returns, in mailbox order (a sublist of the box), exactly the messages —
read or unread — whose body contains the string as a case-sensitive
literal substring; the empty string matches every message; it mutates no
state (the step relation is the identity), so an immediately repeated
identical call returns the identical result.  Both implementations. -/
theorem claim5_search_exact_and_nonmutating :
    (∀ (po : PostOffice) (u p : String) (box : List Msg) (res : List Msg),
        dictGet po.boxes u = some box →
        po.search_inbox u p = some res →
          List.Sublist res box ∧
          (∀ m ∈ box, (m ∈ res ↔ ∃ l r, m.body.data = l ++ p.data ++ r)) ∧
          (p = "" → res = box)) ∧
    (∀ (po : PostOffice) (u p : String),
        step1 po (Op.search u p) = po ∧
        (step1 po (Op.search u p)).search_inbox u p = po.search_inbox u p) ∧
    (∀ (po : PostOffice2) (u p : String) (box : List Message2) (res : List String),
        dictGet po.boxes u = some box →
        po.search_inbox u p = some res →
          ∃ sel : List Message2,
            List.Sublist sel box ∧
            (∀ m ∈ box, (m ∈ sel ↔ ∃ l r, m.message_body.data = l ++ p.data ++ r)) ∧
            (p = "" → sel = box) ∧
            res = sel.map Message2.get_details) ∧
    (∀ (po : PostOffice2) (u p : String),
        step2 po (Op.search u p) = po ∧
        (step2 po (Op.search u p)).search_inbox u p = po.search_inbox u p) := by
  refine ⟨?_, ?_, ?_, ?_⟩
  · intro po u p box res hbox hres
    rw [search_inbox_some p hbox] at hres
    obtain rfl : box.filter (fun message => strContains message.body p) = res :=
      Option.some.inj hres
    refine ⟨List.filter_sublist box, ?_, ?_⟩
    · intro m hm
      rw [List.mem_filter]
      constructor
      · rintro ⟨-, hc⟩
        exact (strContains_iff m.body p).mp hc
      · intro hc
        exact ⟨hm, (strContains_iff m.body p).mpr hc⟩
    · rintro rfl
      have : ∀ m ∈ box, (fun message => strContains message.body "") m = true :=
        fun m _ => strContains_empty m.body
      simp only [List.filter_eq_self]
      exact this
  · intro po u p
    exact ⟨rfl, rfl⟩
  · intro po u p box res hbox hres
    rw [search_inbox2_some p hbox] at hres
    refine ⟨box.filter (fun message => strContains message.message_body p),
      List.filter_sublist box, ?_, ?_, (Option.some.inj hres).symm⟩
    · intro m hm
      rw [List.mem_filter]
      constructor
      · rintro ⟨-, hc⟩
        exact (strContains_iff m.message_body p).mp hc
      · intro hc
        exact ⟨hm, (strContains_iff m.message_body p).mpr hc⟩
    · rintro rfl
      have : ∀ m ∈ box, (fun message => strContains message.message_body "") m = true :=
        fun m _ => strContains_empty m.message_body
      simp only [List.filter_eq_self]
      exact this
  · intro po u p
    exact ⟨rfl, rfl⟩

/-- Witness for C5 on the `show_example` data: searching `"Good"` in a
mailbox holding the three example messages selects exactly the third. -/
theorem claim5_search_exact_and_nonmutating_witness :
    ∃ res : List Msg,
      (PostOffice.init ["n"] |>.send_message "p" "n" "Hello, Newman." false).isSome ∧
      (run1 (PostOffice.init ["n"])
        [Op.send "p" "n" "Hello, Newman." false,
         Op.send "p" "n" "Good bye, Newman." false]).search_inbox "n" "Good" = some res ∧
      List.Sublist res [{ id := 1, body := "Hello, Newman.", sender := "p", read := false },
                        { id := 2, body := "Good bye, Newman.", sender := "p", read := false }] ∧
      res = [{ id := 2, body := "Good bye, Newman.", sender := "p", read := false }] := by
  refine ⟨[{ id := 2, body := "Good bye, Newman.", sender := "p", read := false }],
    by decide, by decide, ?_, rfl⟩
  exact (claim5_search_exact_and_nonmutating.1
    (run1 (PostOffice.init ["n"])
      [Op.send "p" "n" "Hello, Newman." false,
       Op.send "p" "n" "Good bye, Newman." false])
    "n" "Good"
    [{ id := 1, body := "Hello, Newman.", sender := "p", read := false },
     { id := 2, body := "Good bye, Newman.", sender := "p", read := false }]
    [{ id := 2, body := "Good bye, Newman.", sender := "p", read := false }]
    (by decide) (by decide)).1

/-! ## C7: duplicate usernames at construction -/

theorem foldl_insert_const_keys_nodup {α : Type} (v : α) (users : List String) :
    ∀ d : List (String × α), (d.map Prod.fst).Nodup →
      ((users.foldl (fun d user => dictInsert d user v) d).map Prod.fst).Nodup := by
  induction users with
  | nil => intro d h; simpa using h
  | cons w rest ih =>
      intro d h
      apply ih
      rw [dictInsert_keys]
      by_cases hw : w ∈ d.map Prod.fst
      · simpa [hw]
      · simp only [hw, if_false]
        simp [List.nodup_append, h, hw]

theorem foldl_insert_const_get {α : Type} (v : α) (users : List String) :
    ∀ (d : List (String × α)) (u : String),
      dictGet (users.foldl (fun d user => dictInsert d user v) d) u =
        if u ∈ users then some v else dictGet d u := by
  induction users with
  | nil => intro d u; simp
  | cons w rest ih =>
      intro d u
      simp only [List.foldl_cons]
      rw [ih]
      by_cases hm : u ∈ rest
      · simp [hm]
      · by_cases huw : u = w
        · subst huw; simp [hm, dictGet_insert]
        · simp [hm, huw, dictGet_insert]

/-- C7 counterexample: constructing from the duplicate list
`["a", "a"]` does not fail — the embedded `__init__` of both source
files is a total function with no error path — and the two occurrences
of `"a"` silently collapse into a single (empty) mailbox, so the claim
that construction fails with `ConfigError` is false on the code. -/
theorem claim7_counterexample_duplicates_accepted :
    PostOffice.init ["a", "a"] =
      { message_id := 0, read := false, boxes := [("a", [])] } ∧
    PostOffice2.init ["a", "a"] =
      { message_id := 0, boxes := [("a", [])] } := by
  constructor <;> rfl

/-- C7 amended: constructing a PostOffice from a username list that
contains duplicates succeeds without any error and silently collapses
the duplicate usernames into a single mailbox: the resulting directory
has pairwise distinct keys, one empty mailbox for each listed username,
and no mailbox for anyone else — in both implementations. -/
theorem claim7_amended_duplicates_collapse (users : List String) (u : String) :
    (((PostOffice.init users).boxes.map Prod.fst).Nodup ∧
      (u ∈ users → dictGet (PostOffice.init users).boxes u = some []) ∧
      (u ∉ users → dictGet (PostOffice.init users).boxes u = none)) ∧
    (((PostOffice2.init users).boxes.map Prod.fst).Nodup ∧
      (u ∈ users → dictGet (PostOffice2.init users).boxes u = some []) ∧
      (u ∉ users → dictGet (PostOffice2.init users).boxes u = none)) := by
  have h1 := foldl_insert_const_keys_nodup ([] : List Msg) users [] (by simp)
  have g1 := foldl_insert_const_get ([] : List Msg) users [] u
  have h2 := foldl_insert_const_keys_nodup ([] : List Message2) users [] (by simp)
  have g2 := foldl_insert_const_get ([] : List Message2) users [] u
  refine ⟨⟨h1, ?_, ?_⟩, ⟨h2, ?_, ?_⟩⟩
  · intro hm
    show dictGet (users.foldl (fun d user => dictInsert d user []) []) u = some []
    rw [g1]; simp [hm]
  · intro hm
    show dictGet (users.foldl (fun d user => dictInsert d user []) []) u = none
    rw [g1]; simp [hm, dictGet]
  · intro hm
    show dictGet (users.foldl (fun d user => dictInsert d user []) []) u = some []
    rw [g2]; simp [hm]
  · intro hm
    show dictGet (users.foldl (fun d user => dictInsert d user []) []) u = none
    rw [g2]; simp [hm, dictGet]

/-- Witness for C7's amended statement at the duplicate list
`["a", "a"]`: `"a"` gets its single mailbox, `"b"` gets none. -/
theorem claim7_amended_duplicates_collapse_witness :
    dictGet (PostOffice.init ["a", "a"]).boxes "a" = some [] ∧
    dictGet (PostOffice.init ["a", "a"]).boxes "b" = none ∧
    dictGet (PostOffice2.init ["a", "a"]).boxes "a" = some [] ∧
    dictGet (PostOffice2.init ["a", "a"]).boxes "b" = none :=
  ⟨(claim7_amended_duplicates_collapse ["a", "a"] "a").1.2.1 (by decide),
   (claim7_amended_duplicates_collapse ["a", "a"] "b").1.2.2 (by decide),
   (claim7_amended_duplicates_collapse ["a", "a"] "a").2.2.1 (by decide),
   (claim7_amended_duplicates_collapse ["a", "a"] "b").2.2.2 (by decide)⟩

/-! ## Marking lemmas -/

theorem markByIds_nil (box : List Msg) : markByIds [] box = box := by
  simp [markByIds]

theorem markByIds_mark_mem {ids : List Nat} {box : List Msg} {x : Msg}
    (hx : x ∈ box) (hid : x.id ∈ ids) :
    { x with read := true } ∈ markByIds ids box := by
  exact List.mem_map.mpr ⟨x, hx, by simp [hid]⟩

theorem markByIds_covers (ids : List Nat) (box : List Msg)
    (h : ∀ m ∈ box, m.read = false → m.id ∈ ids) :
    (markByIds ids box).filter (fun m => m.read == false) = [] := by
  rw [List.filter_eq_nil_iff]
  intro a ha
  obtain ⟨x, hx, rfl⟩ := List.mem_map.mp ha
  by_cases hr : x.read = false
  · simp [h x hx hr]
  · have hr' : x.read = true := by
      cases hmr : x.read
      · exact absurd hmr hr
      · rfl
    by_cases hc : ids.contains x.id = true
    · have hm : x.id ∈ ids := List.elem_iff.mp hc
      simp [hm]
    · have hm : x.id ∉ ids := fun hmem => hc (List.elem_eq_true_of_mem hmem)
      simp [hm, hr']

theorem selectUnread_sublist (n : Int) (box : List Msg) :
    List.Sublist (selectUnread n box) (box.filter (fun m => m.read == false)) := by
  unfold selectUnread
  by_cases hn : n > 0
  · simpa [hn] using List.take_sublist _ _
  · simpa [hn] using List.Sublist.refl _

theorem selectUnread_unread {n : Int} {box : List Msg} {x : Msg}
    (hx : x ∈ selectUnread n box) : x ∈ box ∧ x.read = false := by
  have hx' : x ∈ box.filter (fun m => m.read == false) :=
    (selectUnread_sublist n box).subset hx
  have := List.mem_filter.mp hx'
  refine ⟨this.1, ?_⟩
  simpa using this.2

theorem selectUnread_all {n : Int} {box : List Msg}
    (h : (selectUnread n box).length = (box.filter (fun m => m.read == false)).length) :
    selectUnread n box = box.filter (fun m => m.read == false) :=
  List.Sublist.eq_of_length (selectUnread_sublist n box) h

/-- C2 (part of): the destructive-read contract of `read_inbox`, first
half for each implementation. -/
theorem read_inbox_marks {po po' : PostOffice} {u : String} {n : Int} {res : List Msg}
    (h : po.read_inbox u n = some (po', res)) :
    (∀ m ∈ res, m.read = true) ∧
    (∀ m ∈ res, ∃ box', dictGet po'.boxes u = some box' ∧
        ∃ m' ∈ box', m'.id = m.id ∧ m'.read = true) := by
  cases hbox : dictGet po.boxes u with
  | none => rw [read_inbox_none n hbox] at h; exact absurd h (by simp)
  | some box =>
      rw [read_inbox_some n hbox] at h
      simp only [Option.some.injEq, Prod.mk.injEq] at h
      obtain ⟨hpo, hres⟩ := h
      constructor
      · intro m hm
        rw [← hres] at hm
        obtain ⟨x, hx, rfl⟩ := List.mem_map.mp hm
        rfl
      · intro m hm
        rw [← hres] at hm
        obtain ⟨x, hx, rfl⟩ := List.mem_map.mp hm
        refine ⟨markByIds ((selectUnread n box).map Msg.id) box, ?_, ?_⟩
        · rw [← hpo]; simp [dictGet_insert_self]
        · exact ⟨{ x with read := true },
            markByIds_mark_mem (selectUnread_unread hx).1
              (List.mem_map.mpr ⟨x, hx, rfl⟩), rfl, rfl⟩

theorem selectUnread_of_no_unread (n : Int) (B : List Msg)
    (h : B.filter (fun m => m.read == false) = []) : selectUnread n B = [] := by
  show (if n > 0 then (B.filter (fun message => message.read == false)).take n.toNat
        else B.filter (fun message => message.read == false)) = []
  rw [h]
  by_cases hn : n > 0 <;> simp [hn]

theorem selectUnread2_of_no_unread (n : Int) (B : List Message2)
    (h : B.filter (fun m => m.message_read == false) = []) : selectUnread2 n B = [] := by
  show (if n > 0 then (B.filter (fun message => message.message_read == false)).take n.toNat
        else B.filter (fun message => message.message_read == false)) = []
  rw [h]
  by_cases hn : n > 0 <;> simp [hn]

theorem read_inbox_drains {po po' : PostOffice} {u : String} {n : Int}
    {res : List Msg} {box : List Msg}
    (h : po.read_inbox u n = some (po', res))
    (hbox : dictGet po.boxes u = some box)
    (hall : res.length = (box.filter (fun m => m.read == false)).length) :
    po'.read_inbox u n = some (po', []) := by
  rw [read_inbox_some n hbox] at h
  simp only [Option.some.injEq, Prod.mk.injEq] at h
  obtain ⟨hpo, hres⟩ := h
  have hsel : selectUnread n box = box.filter (fun m => m.read == false) := by
    apply selectUnread_all
    rw [← hres] at hall
    simpa using hall
  have hbox' : dictGet po'.boxes u =
      some (markByIds ((selectUnread n box).map Msg.id) box) := by
    rw [← hpo]; simp [dictGet_insert_self]
  have hcov : (markByIds ((selectUnread n box).map Msg.id) box).filter
      (fun m => m.read == false) = [] := by
    apply markByIds_covers
    intro m hm hr
    rw [hsel]
    exact List.mem_map.mpr ⟨m, List.mem_filter.mpr ⟨hm, by simp [hr]⟩, rfl⟩
  rw [read_inbox_some n hbox']
  have hsel' : selectUnread n (markByIds ((selectUnread n box).map Msg.id) box) = [] :=
    selectUnread_of_no_unread n _ hcov
  rw [hsel']
  simp only [List.map_nil, markByIds_nil]
  rw [dictInsert_same _ _ _ hbox']

theorem markUnreadUpTo_zero : ∀ box : List Message2, markUnreadUpTo 0 box = box := by
  intro box
  induction box with
  | nil => rfl
  | cons m rest ih =>
      cases hm : m.message_read
      · simp [markUnreadUpTo, hm]
      · simp [markUnreadUpTo, hm, ih]

theorem markUnreadUpTo_mark_mem : ∀ (k : Nat) (box : List Message2) (m : Message2),
    m ∈ (box.filter (fun x => x.message_read == false)).take k →
    { m with message_read := true } ∈ markUnreadUpTo k box := by
  intro k box
  induction box generalizing k with
  | nil => intro m hm; simp at hm
  | cons x rest ih =>
      intro m hm
      cases hx : x.message_read
      · cases k with
        | zero => simp at hm
        | succ j =>
            simp only [List.filter_cons, hx] at hm
            simp only [beq_self_eq_true, if_true, List.take_succ_cons] at hm
            rcases List.mem_cons.mp hm with rfl | hm'
            · simp [markUnreadUpTo, hx]
            · simp only [markUnreadUpTo, hx, Bool.false_eq_true, if_false]
              exact List.mem_cons_of_mem _ (ih j m hm')
      · simp only [List.filter_cons, hx] at hm
        simp only [markUnreadUpTo, hx, if_true]
        simp only [show (true == false) = false from rfl, if_false] at hm
        exact List.mem_cons_of_mem _ (ih k m hm)

theorem markUnreadUpTo_all : ∀ (k : Nat) (box : List Message2),
    (box.filter (fun x => x.message_read == false)).length ≤ k →
    (markUnreadUpTo k box).filter (fun x => x.message_read == false) = [] := by
  intro k box
  induction box generalizing k with
  | nil => intro h; simp [markUnreadUpTo]
  | cons x rest ih =>
      intro h
      cases hx : x.message_read
      · rw [List.filter_cons] at h
        simp only [hx, beq_self_eq_true, if_true, List.length_cons] at h
        cases k with
        | zero => omega
        | succ j =>
            have h' : (rest.filter (fun x => x.message_read == false)).length ≤ j := by
              omega
            simp only [markUnreadUpTo, hx, Bool.false_eq_true, if_false]
            rw [List.filter_cons]
            simpa using ih j h'
      · rw [List.filter_cons] at h
        simp only [hx, show (true == false) = false from rfl, Bool.false_eq_true,
          if_false] at h
        simp only [markUnreadUpTo, hx, if_true]
        rw [List.filter_cons]
        simp only [hx, show (true == false) = false from rfl, Bool.false_eq_true, if_false]
        exact ih k h

theorem selectUnread2_isPrefix (n : Int) (box : List Message2) :
    List.IsPrefix (selectUnread2 n box)
      (box.filter (fun m => m.message_read == false)) := by
  unfold selectUnread2
  by_cases hn : n > 0
  · simpa [hn] using List.take_prefix _ _
  · simp [hn]

theorem selectUnread2_take (n : Int) (box : List Message2) :
    (box.filter (fun m => m.message_read == false)).take (selectUnread2 n box).length =
      selectUnread2 n box :=
  (List.prefix_iff_eq_take.mp (selectUnread2_isPrefix n box)).symm

theorem read_inbox2_marks {po po' : PostOffice2} {u : String} {n : Int} {res : List String}
    (h : po.read_inbox u n = some (po', res)) :
    ∀ s ∈ res, ∃ m' : Message2, m'.message_read = true ∧ s = m'.get_details ∧
      ∃ box', dictGet po'.boxes u = some box' ∧ m' ∈ box' := by
  cases hbox : dictGet po.boxes u with
  | none => rw [read_inbox2_none n hbox] at h; exact absurd h (by simp)
  | some box =>
      rw [read_inbox2_some n hbox] at h
      simp only [Option.some.injEq, Prod.mk.injEq] at h
      obtain ⟨hpo, hres⟩ := h
      intro s hs
      rw [← hres] at hs
      simp only [List.map_map] at hs
      obtain ⟨x, hx, rfl⟩ := List.mem_map.mp hs
      refine ⟨{ x with message_read := true }, rfl, rfl,
        markUnreadUpTo (selectUnread2 n box).length box, ?_, ?_⟩
      · rw [← hpo]; simp [dictGet_insert_self]
      · apply markUnreadUpTo_mark_mem
        rw [selectUnread2_take]
        exact hx

theorem read_inbox2_drains {po po' : PostOffice2} {u : String} {n : Int}
    {res : List String} {box : List Message2}
    (h : po.read_inbox u n = some (po', res))
    (hbox : dictGet po.boxes u = some box)
    (hall : res.length = (box.filter (fun m => m.message_read == false)).length) :
    po'.read_inbox u n = some (po', []) := by
  rw [read_inbox2_some n hbox] at h
  simp only [Option.some.injEq, Prod.mk.injEq] at h
  obtain ⟨hpo, hres⟩ := h
  have hlen : (selectUnread2 n box).length =
      (box.filter (fun m => m.message_read == false)).length := by
    rw [← hres] at hall; simpa using hall
  have hbox' : dictGet po'.boxes u =
      some (markUnreadUpTo (selectUnread2 n box).length box) := by
    rw [← hpo]; simp [dictGet_insert_self]
  have hcov : (markUnreadUpTo (selectUnread2 n box).length box).filter
      (fun m => m.message_read == false) = [] :=
    markUnreadUpTo_all _ box (le_of_eq hlen.symm)
  rw [read_inbox2_some n hbox']
  have hsel2 : selectUnread2 n (markUnreadUpTo (selectUnread2 n box).length box) = [] :=
    selectUnread2_of_no_unread n _ hcov
  rw [hsel2]
  simp only [List.length_nil, markUnreadUpTo_zero, List.map_nil]
  rw [dictInsert_same _ _ _ hbox']

/-- C2: `read_inbox` is a destructive read.  In both implementations:
every message included in the result is marked read in the stored
mailbox; each returned detail snapshot shows the post-mutation state
(`read = true`); and when the call returned all the unread messages of
the inbox (in particular any call with `number_of_message <= 0`), an
immediate second call with the same arguments returns the empty
sequence and leaves the state unchanged. -/
theorem claim2_destructive_read :
    (∀ (po po' : PostOffice) (u : String) (n : Int) (res : List Msg),
        po.read_inbox u n = some (po', res) →
          (∀ m ∈ res, m.read = true) ∧
          (∀ m ∈ res, ∃ box', dictGet po'.boxes u = some box' ∧
              ∃ m' ∈ box', m'.id = m.id ∧ m'.read = true) ∧
          (∀ box, dictGet po.boxes u = some box →
            res.length = (box.filter (fun m => m.read == false)).length →
              po'.read_inbox u n = some (po', []))) ∧
    (∀ (po po' : PostOffice2) (u : String) (n : Int) (res : List String),
        po.read_inbox u n = some (po', res) →
          (∀ s ∈ res, ∃ m' : Message2, m'.message_read = true ∧ s = m'.get_details ∧
              ∃ box', dictGet po'.boxes u = some box' ∧ m' ∈ box') ∧
          (∀ box, dictGet po.boxes u = some box →
            res.length = (box.filter (fun m => m.message_read == false)).length →
              po'.read_inbox u n = some (po', []))) := by
  constructor
  · intro po po' u n res h
    exact ⟨(read_inbox_marks h).1, (read_inbox_marks h).2,
      fun box hbox hall => read_inbox_drains h hbox hall⟩
  · intro po po' u n res h
    exact ⟨read_inbox2_marks h, fun box hbox hall => read_inbox2_drains h hbox hall⟩

/-- Witness for C2: after one send and one full read, the second
`read_inbox` call with the same arguments returns no messages and does
not change the state (both implementations). -/
theorem claim2_destructive_read_witness :
    (({ message_id := 1, read := false,
        boxes := [("a", [{ id := 1, body := "m1", sender := "s", read := true }])] } :
          PostOffice).read_inbox "a" 0 =
      some ({ message_id := 1, read := false,
              boxes := [("a", [{ id := 1, body := "m1", sender := "s", read := true }])] },
            [])) ∧
    (({ message_id := 1,
        boxes := [("a", [{ message_id := 1, message_body := "m1", message_sender := "s",
                           message_read := true }])] } : PostOffice2).read_inbox "a" 0 =
      some ({ message_id := 1,
              boxes := [("a", [{ message_id := 1, message_body := "m1",
                                 message_sender := "s", message_read := true }])] },
            [])) :=
  ⟨(claim2_destructive_read.1
      (run1 (PostOffice.init ["a"]) [Op.send "s" "a" "m1" false])
      { message_id := 1, read := false,
        boxes := [("a", [{ id := 1, body := "m1", sender := "s", read := true }])] }
      "a" 0
      [{ id := 1, body := "m1", sender := "s", read := true }] (by decide)).2.2
      [{ id := 1, body := "m1", sender := "s", read := false }] (by decide) (by decide),
   (claim2_destructive_read.2
      (run2 (PostOffice2.init ["a"]) [Op.send "s" "a" "m1" false])
      { message_id := 1,
        boxes := [("a", [{ message_id := 1, message_body := "m1", message_sender := "s",
                           message_read := true }])] }
      "a" 0
      [Message2.get_details { message_id := 1, message_body := "m1", message_sender := "s",
                              message_read := true }] (by decide)).2
      [{ message_id := 1, message_body := "m1", message_sender := "s",
         message_read := false }] (by decide) (by decide)⟩

/-! ## C4: read-limit truncation -/

theorem selectUnread_pos (n : Int) (hn : 0 < n) (box : List Msg) :
    selectUnread n box = (box.filter (fun m => m.read == false)).take n.toNat := by
  show (if n > 0 then (box.filter (fun message => message.read == false)).take n.toNat
        else box.filter (fun message => message.read == false)) =
    (box.filter (fun m => m.read == false)).take n.toNat
  simp [hn]

theorem selectUnread_nonpos (n : Int) (hn : n ≤ 0) (box : List Msg) :
    selectUnread n box = box.filter (fun m => m.read == false) := by
  show (if n > 0 then (box.filter (fun message => message.read == false)).take n.toNat
        else box.filter (fun message => message.read == false)) =
    box.filter (fun m => m.read == false)
  have hn' : ¬n > 0 := by omega
  simp [hn']

theorem selectUnread2_pos (n : Int) (hn : 0 < n) (box : List Message2) :
    selectUnread2 n box = (box.filter (fun m => m.message_read == false)).take n.toNat := by
  show (if n > 0 then (box.filter (fun message => message.message_read == false)).take n.toNat
        else box.filter (fun message => message.message_read == false)) =
    (box.filter (fun m => m.message_read == false)).take n.toNat
  simp [hn]

theorem selectUnread2_nonpos (n : Int) (hn : n ≤ 0) (box : List Message2) :
    selectUnread2 n box = box.filter (fun m => m.message_read == false) := by
  show (if n > 0 then (box.filter (fun message => message.message_read == false)).take n.toNat
        else box.filter (fun message => message.message_read == false)) =
    box.filter (fun m => m.message_read == false)
  have hn' : ¬n > 0 := by omega
  simp [hn']

theorem markByIds_id_of_disjoint (ids : List Nat) (l : List Msg)
    (h : ∀ x ∈ l, x.id ∉ ids) : markByIds ids l = l := by
  have h' : ∀ x ∈ l,
      (fun m => if ids.contains m.id then { m with read := true } else m) x = x := by
    intro x hx
    simp [h x hx]
  unfold markByIds
  rw [List.map_congr_left h', List.map_id']

theorem markUnreadUpTo_append_read (k : Nat) (l1 rest : List Message2)
    (h : ∀ x ∈ l1, x.message_read = true) :
    markUnreadUpTo k (l1 ++ rest) = l1 ++ markUnreadUpTo k rest := by
  induction l1 with
  | nil => simp
  | cons x xs ih =>
      have hx : x.message_read = true := h x (List.mem_cons_self x xs)
      simp only [List.cons_append, markUnreadUpTo, hx, if_true, List.append_eq]
      rw [ih (fun y hy => h y (List.mem_cons_of_mem x hy))]

theorem markUnreadUpTo_succ_unread (j : Nat) (a : Message2) (l : List Message2)
    (ha : a.message_read = false) :
    markUnreadUpTo (j + 1) (a :: l) =
      { a with message_read := true } :: markUnreadUpTo j l := by
  simp [markUnreadUpTo, ha]

theorem read_inbox_limit_general {po po' : PostOffice} {u : String} {n : Int}
    {box : List Msg} {res : List Msg}
    (hbox : dictGet po.boxes u = some box)
    (h : po.read_inbox u n = some (po', res)) :
    (0 < n → res.length = min n.toNat (box.filter (fun m => m.read == false)).length) ∧
    (n ≤ 0 → res = (box.filter (fun m => m.read == false)).map
        (fun m => { m with read := true })) := by
  rw [read_inbox_some n hbox] at h
  simp only [Option.some.injEq, Prod.mk.injEq] at h
  obtain ⟨hpo, hres⟩ := h
  constructor
  · intro hn
    rw [← hres, List.length_map, selectUnread_pos n hn]
    exact List.length_take _ _
  · intro hn
    rw [← hres, selectUnread_nonpos n hn]

theorem read_inbox2_limit_general {po po' : PostOffice2} {u : String} {n : Int}
    {box : List Message2} {res : List String}
    (hbox : dictGet po.boxes u = some box)
    (h : po.read_inbox u n = some (po', res)) :
    (0 < n →
      res.length = min n.toNat (box.filter (fun m => m.message_read == false)).length) ∧
    (n ≤ 0 → res = ((box.filter (fun m => m.message_read == false)).map
        (fun m => { m with message_read := true })).map Message2.get_details) := by
  rw [read_inbox2_some n hbox] at h
  simp only [Option.some.injEq, Prod.mk.injEq] at h
  obtain ⟨hpo, hres⟩ := h
  constructor
  · intro hn
    rw [← hres, List.length_map, List.length_map, selectUnread2_pos n hn]
    exact List.length_take _ _
  · intro hn
    rw [← hres, selectUnread2_nonpos n hn]

theorem read_limit_scenario1 {po : PostOffice} {u : String} {box : List Msg} {a b c : Msg}
    (hbox : dictGet po.boxes u = some box)
    (hnodup : (box.map Msg.id).Nodup)
    (hfil : box.filter (fun m => m.read == false) = [a, b, c]) :
    ∃ po' l1 l2, box = l1 ++ a :: l2 ∧
      po.read_inbox u 1 = some (po', [{ a with read := true }]) ∧
      dictGet po'.boxes u = some (l1 ++ { a with read := true } :: l2) ∧
      (po'.read_inbox u 0).map Prod.snd =
        some [{ b with read := true }, { c with read := true }] := by
  obtain ⟨l1, l2, rfl, hl1, hpa, hl2⟩ := List.filter_eq_cons_iff.mp hfil
  rw [List.map_append, List.map_cons] at hnodup
  obtain ⟨hn1, hn2, hdisj⟩ := List.nodup_append.mp hnodup
  obtain ⟨hna2, -⟩ := List.nodup_cons.mp hn2
  have hal1 : a.id ∉ l1.map Msg.id := fun hmem => hdisj hmem (List.mem_cons_self _ _)
  have hsel1 : selectUnread 1 (l1 ++ a :: l2) = [a] := by
    rw [selectUnread_pos 1 (by omega), hfil]
    rfl
  have hmark : markByIds [a.id] (l1 ++ a :: l2) =
      l1 ++ { a with read := true } :: l2 := by
    unfold markByIds
    rw [List.map_append, List.map_cons]
    have e1 : l1.map (fun m => if [a.id].contains m.id then { m with read := true } else m)
        = l1 := by
      have := markByIds_id_of_disjoint [a.id] l1 (fun x hx hmem => by
        have : x.id = a.id := by simpa using hmem
        exact hal1 (this ▸ List.mem_map_of_mem Msg.id hx))
      simpa [markByIds] using this
    have e2 : l2.map (fun m => if [a.id].contains m.id then { m with read := true } else m)
        = l2 := by
      have := markByIds_id_of_disjoint [a.id] l2 (fun x hx hmem => by
        have : x.id = a.id := by simpa using hmem
        exact hna2 (this ▸ List.mem_map_of_mem Msg.id hx))
      simpa [markByIds] using this
    rw [e1, e2]
    simp
  have hread1 : po.read_inbox u 1 =
      some ({ po with
              boxes := dictInsert po.boxes u (l1 ++ { a with read := true } :: l2) },
            [{ a with read := true }]) := by
    rw [read_inbox_some 1 hbox, hsel1]
    rw [show ([a].map Msg.id) = [a.id] from rfl, hmark]
    rfl
  have hbox' : dictGet (dictInsert po.boxes u
      (l1 ++ { a with read := true } :: l2)) u =
      some (l1 ++ { a with read := true } :: l2) := dictGet_insert_self _ _ _
  have hfil' : (l1 ++ { a with read := true } :: l2).filter
      (fun m => m.read == false) = [b, c] := by
    rw [List.filter_append, List.filter_cons]
    have hl1nil : l1.filter (fun m => m.read == false) = [] :=
      List.filter_eq_nil_iff.mpr hl1
    rw [hl1nil, hl2]
    simp
  have hsel0 : selectUnread 0 (l1 ++ { a with read := true } :: l2) = [b, c] := by
    rw [selectUnread_nonpos 0 (by omega), hfil']
  refine ⟨_, l1, l2, rfl, hread1, hbox', ?_⟩
  rw [show ({ po with
        boxes := dictInsert po.boxes u (l1 ++ { a with read := true } :: l2) } :
      PostOffice).read_inbox u 0 = _ from read_inbox_some 0 hbox', hsel0]
  rfl

theorem read_limit_scenario2 {po : PostOffice2} {u : String} {box : List Message2}
    {a b c : Message2}
    (hbox : dictGet po.boxes u = some box)
    (hfil : box.filter (fun m => m.message_read == false) = [a, b, c]) :
    ∃ po' l1 l2, box = l1 ++ a :: l2 ∧
      po.read_inbox u 1 = some (po',
        [Message2.get_details { a with message_read := true }]) ∧
      dictGet po'.boxes u = some (l1 ++ { a with message_read := true } :: l2) ∧
      (po'.read_inbox u 0).map Prod.snd =
        some [Message2.get_details { b with message_read := true },
              Message2.get_details { c with message_read := true }] := by
  obtain ⟨l1, l2, rfl, hl1, hpa, hl2⟩ := List.filter_eq_cons_iff.mp hfil
  have hl1read : ∀ x ∈ l1, x.message_read = true := by
    intro x hx
    have := hl1 x hx
    cases hxr : x.message_read
    · exact absurd (by simp [hxr]) this
    · rfl
  have ha : a.message_read = false := by simpa using hpa
  have hsel1 : selectUnread2 1 (l1 ++ a :: l2) = [a] := by
    rw [selectUnread2_pos 1 (by omega), hfil]
    rfl
  have hmark : markUnreadUpTo 1 (l1 ++ a :: l2) =
      l1 ++ { a with message_read := true } :: l2 := by
    rw [markUnreadUpTo_append_read 1 l1 _ hl1read,
      markUnreadUpTo_succ_unread 0 a l2 ha, markUnreadUpTo_zero]
  have hread1 : po.read_inbox u 1 =
      some ({ po with
              boxes := dictInsert po.boxes u
                  (l1 ++ { a with message_read := true } :: l2) },
            [Message2.get_details { a with message_read := true }]) := by
    rw [read_inbox2_some 1 hbox, hsel1]
    rw [show ([a] : List Message2).length = 1 from rfl, hmark]
    rfl
  have hbox' : dictGet (dictInsert po.boxes u
      (l1 ++ { a with message_read := true } :: l2)) u =
      some (l1 ++ { a with message_read := true } :: l2) := dictGet_insert_self _ _ _
  have hfil' : (l1 ++ { a with message_read := true } :: l2).filter
      (fun m => m.message_read == false) = [b, c] := by
    rw [List.filter_append, List.filter_cons]
    have hl1nil : l1.filter (fun m => m.message_read == false) = [] :=
      List.filter_eq_nil_iff.mpr hl1
    rw [hl1nil, hl2]
    simp
  have hsel0 : selectUnread2 0 (l1 ++ { a with message_read := true } :: l2) = [b, c] := by
    rw [selectUnread2_nonpos 0 (by omega), hfil']
  refine ⟨_, l1, l2, rfl, hread1, hbox', ?_⟩
  rw [show ({ po with
        boxes := dictInsert po.boxes u
            (l1 ++ { a with message_read := true } :: l2) } :
      PostOffice2).read_inbox u 0 = _ from read_inbox2_some 0 hbox', hsel0]
  rfl


def wMsgA : Msg := { id := 1, body := "A", sender := "s", read := false }
def wMsgB : Msg := { id := 2, body := "B", sender := "s", read := false }
def wMsgC : Msg := { id := 3, body := "C", sender := "s", read := false }
def wPO : PostOffice :=
  { message_id := 3, read := false, boxes := [("w", [wMsgA, wMsgB, wMsgC])] }
def wMsg2A : Message2 :=
  { message_id := 1, message_body := "A", message_sender := "s", message_read := false }
def wMsg2B : Message2 :=
  { message_id := 2, message_body := "B", message_sender := "s", message_read := false }
def wMsg2C : Message2 :=
  { message_id := 3, message_body := "C", message_sender := "s", message_read := false }
def wPO2 : PostOffice2 :=
  { message_id := 3, boxes := [("w", [wMsg2A, wMsg2B, wMsg2C])] }


/-! ## C10: frame effects -/

theorem markUnreadUpTo_length : ∀ (k : Nat) (box : List Message2),
    (markUnreadUpTo k box).length = box.length := by
  intro k box
  induction box generalizing k with
  | nil => rfl
  | cons x rest ih =>
      cases hx : x.message_read
      · cases k with
        | zero => simp [markUnreadUpTo, hx]
        | succ j => simp [markUnreadUpTo, hx, ih j]
      · simp [markUnreadUpTo, hx, ih k]

theorem markUnreadUpTo_get : ∀ (k : Nat) (box : List Message2) (i : Nat)
    (h : i < box.length) (h' : i < (markUnreadUpTo k box).length),
    (markUnreadUpTo k box).get ⟨i, h'⟩ = box.get ⟨i, h⟩ ∨
    (markUnreadUpTo k box).get ⟨i, h'⟩ = { box.get ⟨i, h⟩ with message_read := true } := by
  intro k box
  induction box generalizing k with
  | nil => intro i h h'; exact absurd h (by simp)
  | cons x rest ih =>
      intro i h h'
      cases hx : x.message_read
      · cases k with
        | zero =>
            left
            have e : markUnreadUpTo 0 (x :: rest) = x :: rest := by
              simp [markUnreadUpTo, hx]
            exact (List.get_of_eq e _).trans rfl
        | succ j =>
            have e : markUnreadUpTo (j + 1) (x :: rest) =
                { x with message_read := true } :: markUnreadUpTo j rest :=
              markUnreadUpTo_succ_unread j x rest hx
            cases i with
            | zero =>
                right
                rw [List.get_of_eq e ⟨0, h'⟩]
                rfl
            | succ i' =>
                have h2 : i' < rest.length := by simpa using h
                have h3 : i' < (markUnreadUpTo j rest).length := by
                  rw [markUnreadUpTo_length]; exact h2
                have := ih j i' h2 h3
                rw [List.get_of_eq e ⟨i' + 1, h'⟩]
                simpa using this
      · have e : markUnreadUpTo k (x :: rest) = x :: markUnreadUpTo k rest := by
          simp [markUnreadUpTo, hx]
        cases i with
        | zero =>
            left
            rw [List.get_of_eq e ⟨0, h'⟩]
            rfl
        | succ i' =>
            have h2 : i' < rest.length := by simpa using h
            have h3 : i' < (markUnreadUpTo k rest).length := by
              rw [markUnreadUpTo_length]; exact h2
            have := ih k i' h2 h3
            rw [List.get_of_eq e ⟨i' + 1, h'⟩]
            simpa using this

theorem markByIds_length (ids : List Nat) (box : List Msg) :
    (markByIds ids box).length = box.length := by
  simp [markByIds]

theorem markByIds_get (ids : List Nat) (box : List Msg) (i : Nat)
    (h : i < box.length) (h' : i < (markByIds ids box).length) :
    (markByIds ids box).get ⟨i, h'⟩ = box.get ⟨i, h⟩ ∨
    (markByIds ids box).get ⟨i, h'⟩ = { box.get ⟨i, h⟩ with read := true } := by
  have e : (markByIds ids box).get ⟨i, h'⟩ =
      if ids.contains (box.get ⟨i, h⟩).id then { box.get ⟨i, h⟩ with read := true }
      else box.get ⟨i, h⟩ := by
    simp [markByIds, List.get_map]
  rw [e]
  cases hc : ids.contains (box.get ⟨i, h⟩).id
  · left; simp [hc]
  · right; simp [hc]

/-- C10: every operation leaves all non-targeted mailboxes unchanged.
A successful `send_message` changes only the id counter and the
recipient's mailbox; a successful `read_inbox` changes neither the
counter nor any other mailbox, and inside the named user's mailbox it
neither adds, removes nor reorders messages — every position holds the
same message, at most with its read flag switched on; `search_inbox`
changes nothing at all.  Both implementations. -/
theorem claim10_frame_effects :
    (∀ (po po' : PostOffice) (s r b : String) (urg : Bool) (i : Nat),
        po.send_message s r b urg = some (po', i) →
          po'.message_id = po.message_id + 1 ∧ po'.read = po.read ∧
          ∀ v, v ≠ r → dictGet po'.boxes v = dictGet po.boxes v) ∧
    (∀ (po po' : PostOffice) (u : String) (n : Int) (res : List Msg),
        po.read_inbox u n = some (po', res) →
          po'.message_id = po.message_id ∧ po'.read = po.read ∧
          (∀ v, v ≠ u → dictGet po'.boxes v = dictGet po.boxes v) ∧
          ∀ box box', dictGet po.boxes u = some box →
            dictGet po'.boxes u = some box' →
              box'.length = box.length ∧
              ∀ i (h : i < box.length) (h' : i < box'.length),
                box'.get ⟨i, h'⟩ = box.get ⟨i, h⟩ ∨
                box'.get ⟨i, h'⟩ = { box.get ⟨i, h⟩ with read := true }) ∧
    (∀ (po : PostOffice) (u p : String), step1 po (Op.search u p) = po) ∧
    (∀ (po po' : PostOffice2) (s r b : String) (urg : Bool) (i : Nat),
        po.send_message s r b urg = some (po', i) →
          po'.message_id = po.message_id + 1 ∧
          ∀ v, v ≠ r → dictGet po'.boxes v = dictGet po.boxes v) ∧
    (∀ (po po' : PostOffice2) (u : String) (n : Int) (res : List String),
        po.read_inbox u n = some (po', res) →
          po'.message_id = po.message_id ∧
          (∀ v, v ≠ u → dictGet po'.boxes v = dictGet po.boxes v) ∧
          ∀ box box', dictGet po.boxes u = some box →
            dictGet po'.boxes u = some box' →
              box'.length = box.length ∧
              ∀ i (h : i < box.length) (h' : i < box'.length),
                box'.get ⟨i, h'⟩ = box.get ⟨i, h⟩ ∨
                box'.get ⟨i, h'⟩ = { box.get ⟨i, h⟩ with message_read := true }) ∧
    (∀ (po : PostOffice2) (u p : String), step2 po (Op.search u p) = po) := by
  refine ⟨?_, ?_, ?_, ?_, ?_, ?_⟩
  · intro po po' s r b urg i h
    cases hg : dictGet po.boxes r with
    | none => rw [send_message_none s b urg hg] at h; exact absurd h (by simp)
    | some bx =>
        rw [send_message_some s b urg hg] at h
        simp only [Option.some.injEq, Prod.mk.injEq] at h
        obtain ⟨hpo, -⟩ := h
        refine ⟨by rw [← hpo], by rw [← hpo], ?_⟩
        intro v hv
        rw [← hpo]
        show dictGet (dictInsert po.boxes r _) v = _
        rw [dictGet_insert]
        simp [hv]
  · intro po po' u n res h
    cases hg : dictGet po.boxes u with
    | none => rw [read_inbox_none n hg] at h; exact absurd h (by simp)
    | some bx =>
        rw [read_inbox_some n hg] at h
        simp only [Option.some.injEq, Prod.mk.injEq] at h
        obtain ⟨hpo, -⟩ := h
        refine ⟨by rw [← hpo], by rw [← hpo], ?_, ?_⟩
        · intro v hv
          rw [← hpo]
          show dictGet (dictInsert po.boxes u _) v = _
          rw [dictGet_insert]
          simp [hv]
        · intro box box' hb hb'
          obtain rfl : bx = box := Option.some.inj hb
          have hb2 : dictGet po'.boxes u =
              some (markByIds ((selectUnread n bx).map Msg.id) bx) := by
            rw [← hpo]; exact dictGet_insert_self _ _ _
          obtain rfl : markByIds ((selectUnread n bx).map Msg.id) bx = box' :=
            Option.some.inj (hb2.symm.trans hb')
          exact ⟨markByIds_length _ _, fun i h h' => markByIds_get _ _ i h h'⟩
  · intro po u p
    rfl
  · intro po po' s r b urg i h
    cases hg : dictGet po.boxes r with
    | none => rw [send_message2_none s b urg hg] at h; exact absurd h (by simp)
    | some bx =>
        rw [send_message2_some s b urg hg] at h
        simp only [Option.some.injEq, Prod.mk.injEq] at h
        obtain ⟨hpo, -⟩ := h
        refine ⟨by rw [← hpo], ?_⟩
        intro v hv
        rw [← hpo]
        show dictGet (dictInsert po.boxes r _) v = _
        rw [dictGet_insert]
        simp [hv]
  · intro po po' u n res h
    cases hg : dictGet po.boxes u with
    | none => rw [read_inbox2_none n hg] at h; exact absurd h (by simp)
    | some bx =>
        rw [read_inbox2_some n hg] at h
        simp only [Option.some.injEq, Prod.mk.injEq] at h
        obtain ⟨hpo, -⟩ := h
        refine ⟨by rw [← hpo], ?_, ?_⟩
        · intro v hv
          rw [← hpo]
          show dictGet (dictInsert po.boxes u _) v = _
          rw [dictGet_insert]
          simp [hv]
        · intro box box' hb hb'
          obtain rfl : bx = box := Option.some.inj hb
          have hb2 : dictGet po'.boxes u =
              some (markUnreadUpTo (selectUnread2 n bx).length bx) := by
            rw [← hpo]; exact dictGet_insert_self _ _ _
          obtain rfl : markUnreadUpTo (selectUnread2 n bx).length bx = box' :=
            Option.some.inj (hb2.symm.trans hb')
          exact ⟨markUnreadUpTo_length _ _,
            fun i h h' => markUnreadUpTo_get _ bx i h h'⟩
  · intro po u p
    rfl

/-- Witness for C10: one send to `"a"` in a two-user office leaves
`"b"`'s mailbox untouched; the read after it keeps the counter at 1 and
changes only the read flag; searches change nothing. -/
theorem claim10_frame_effects_witness :
    ((run1 (PostOffice.init ["a", "b"]) [Op.send "s" "a" "m" false]).message_id = 0 + 1 ∧
      (run1 (PostOffice.init ["a", "b"]) [Op.send "s" "a" "m" false]).read =
        (PostOffice.init ["a", "b"]).read ∧
      ∀ v, v ≠ "a" →
        dictGet (run1 (PostOffice.init ["a", "b"]) [Op.send "s" "a" "m" false]).boxes v =
          dictGet (PostOffice.init ["a", "b"]).boxes v) ∧
    ((run2 (PostOffice2.init ["a", "b"]) [Op.send "s" "a" "m" false]).message_id = 0 + 1 ∧
      ∀ v, v ≠ "a" →
        dictGet (run2 (PostOffice2.init ["a", "b"]) [Op.send "s" "a" "m" false]).boxes v =
          dictGet (PostOffice2.init ["a", "b"]).boxes v) :=
  ⟨claim10_frame_effects.1 (PostOffice.init ["a", "b"]) _ "s" "a" "m" false 1 (by decide),
   claim10_frame_effects.2.2.2.1 (PostOffice2.init ["a", "b"]) _ "s" "a" "m" false 1
     (by decide)⟩

/-! ## C8: the read flag is one-directional -/

theorem step1_box_rel (po : PostOffice) (op : Op) (u : String) (box box' : List Msg)
    (hb : dictGet po.boxes u = some box)
    (hb' : dictGet (step1 po op).boxes u = some box') :
    (∀ m ∈ box, m.read = true →
      ∃ m' ∈ box', m'.id = m.id ∧ m'.body = m.body ∧ m'.sender = m.sender ∧
        m'.read = true) ∧
    ((∀ k, op ≠ Op.read u k) → ∀ m ∈ box, m ∈ box') := by
  cases op with
  | send s r b urg =>
      cases hg : dictGet po.boxes r with
      | none =>
          rw [show step1 po (Op.send s r b urg) = po by
            simp [step1, send_message_none s b urg hg]] at hb'
          obtain rfl : box = box' := Option.some.inj (hb.symm.trans hb')
          exact ⟨fun m hm hr => ⟨m, hm, rfl, rfl, rfl, hr⟩, fun _ m hm => hm⟩
      | some bx =>
          rw [show step1 po (Op.send s r b urg) =
              { po with message_id := po.message_id + 1,
                        boxes := dictInsert po.boxes r
                          (if urg then freshMsg po s b :: bx
                           else bx ++ [freshMsg po s b]) } by
            simp [step1, send_message_some s b urg hg]] at hb'
          simp only at hb'
          rw [dictGet_insert] at hb'
          by_cases hur : u = r
          · obtain rfl : bx = box := by
              rw [hur] at hb
              exact Option.some.inj (hg.symm.trans hb)
            rw [if_pos hur] at hb'
            obtain rfl : (if urg then freshMsg po s b :: bx
                else bx ++ [freshMsg po s b]) = box' := Option.some.inj hb'
            have hmem : ∀ m ∈ bx, m ∈ (if urg then freshMsg po s b :: bx
                else bx ++ [freshMsg po s b]) := by
              intro m hm
              cases urg <;> simp [hm]
            exact ⟨fun m hm hr => ⟨m, hmem m hm, rfl, rfl, rfl, hr⟩,
              fun _ m hm => hmem m hm⟩
          · rw [if_neg hur] at hb'
            obtain rfl : box = box' := Option.some.inj (hb.symm.trans hb')
            exact ⟨fun m hm hr => ⟨m, hm, rfl, rfl, rfl, hr⟩, fun _ m hm => hm⟩
  | read v n =>
      cases hg : dictGet po.boxes v with
      | none =>
          rw [show step1 po (Op.read v n) = po by
            simp [step1, read_inbox_none n hg]] at hb'
          obtain rfl : box = box' := Option.some.inj (hb.symm.trans hb')
          exact ⟨fun m hm hr => ⟨m, hm, rfl, rfl, rfl, hr⟩, fun _ m hm => hm⟩
      | some bx =>
          rw [show step1 po (Op.read v n) =
              { po with boxes := dictInsert po.boxes v
                          (markByIds ((selectUnread n bx).map Msg.id) bx) } by
            simp [step1, read_inbox_some n hg]] at hb'
          simp only at hb'
          rw [dictGet_insert] at hb'
          by_cases huv : u = v
          · obtain rfl : bx = box := by
              rw [huv] at hb
              exact Option.some.inj (hg.symm.trans hb)
            rw [if_pos huv] at hb'
            obtain rfl : markByIds ((selectUnread n bx).map Msg.id) bx = box' :=
              Option.some.inj hb'
            constructor
            · intro m hm hr
              refine ⟨if ((selectUnread n bx).map Msg.id).contains m.id
                  then { m with read := true } else m, List.mem_map_of_mem _ hm, ?_⟩
              cases hc : ((selectUnread n bx).map Msg.id).contains m.id
              · simp [hr]
              · simp
            · intro hne
              exact absurd (huv ▸ rfl) (hne n)
          · rw [if_neg huv] at hb'
            obtain rfl : box = box' := Option.some.inj (hb.symm.trans hb')
            exact ⟨fun m hm hr => ⟨m, hm, rfl, rfl, rfl, hr⟩, fun _ m hm => hm⟩
  | search v p =>
      obtain rfl : box = box' := Option.some.inj (hb.symm.trans hb')
      exact ⟨fun m hm hr => ⟨m, hm, rfl, rfl, rfl, hr⟩, fun _ m hm => hm⟩

theorem step2_box_rel (po : PostOffice2) (op : Op) (u : String)
    (box box' : List Message2)
    (hb : dictGet po.boxes u = some box)
    (hb' : dictGet (step2 po op).boxes u = some box') :
    (∀ m ∈ box, m.message_read = true →
      ∃ m' ∈ box', m'.message_id = m.message_id ∧ m'.message_body = m.message_body ∧
        m'.message_sender = m.message_sender ∧ m'.message_read = true) ∧
    ((∀ k, op ≠ Op.read u k) → ∀ m ∈ box, m ∈ box') := by
  cases op with
  | send s r b urg =>
      cases hg : dictGet po.boxes r with
      | none =>
          rw [show step2 po (Op.send s r b urg) = po by
            simp [step2, send_message2_none s b urg hg]] at hb'
          obtain rfl : box = box' := Option.some.inj (hb.symm.trans hb')
          exact ⟨fun m hm hr => ⟨m, hm, rfl, rfl, rfl, hr⟩, fun _ m hm => hm⟩
      | some bx =>
          rw [show step2 po (Op.send s r b urg) =
              { message_id := po.message_id + 1,
                boxes := dictInsert po.boxes r
                           (if urg then freshMsg2 po s b :: bx
                            else bx ++ [freshMsg2 po s b]) } by
            simp [step2, send_message2_some s b urg hg]] at hb'
          simp only at hb'
          rw [dictGet_insert] at hb'
          by_cases hur : u = r
          · obtain rfl : bx = box := by
              rw [hur] at hb
              exact Option.some.inj (hg.symm.trans hb)
            rw [if_pos hur] at hb'
            obtain rfl : (if urg then freshMsg2 po s b :: bx
                else bx ++ [freshMsg2 po s b]) = box' := Option.some.inj hb'
            have hmem : ∀ m ∈ bx, m ∈ (if urg then freshMsg2 po s b :: bx
                else bx ++ [freshMsg2 po s b]) := by
              intro m hm
              cases urg <;> simp [hm]
            exact ⟨fun m hm hr => ⟨m, hmem m hm, rfl, rfl, rfl, hr⟩,
              fun _ m hm => hmem m hm⟩
          · rw [if_neg hur] at hb'
            obtain rfl : box = box' := Option.some.inj (hb.symm.trans hb')
            exact ⟨fun m hm hr => ⟨m, hm, rfl, rfl, rfl, hr⟩, fun _ m hm => hm⟩
  | read v n =>
      cases hg : dictGet po.boxes v with
      | none =>
          rw [show step2 po (Op.read v n) = po by
            simp [step2, read_inbox2_none n hg]] at hb'
          obtain rfl : box = box' := Option.some.inj (hb.symm.trans hb')
          exact ⟨fun m hm hr => ⟨m, hm, rfl, rfl, rfl, hr⟩, fun _ m hm => hm⟩
      | some bx =>
          rw [show step2 po (Op.read v n) =
              { po with boxes := dictInsert po.boxes v
                          (markUnreadUpTo (selectUnread2 n bx).length bx) } by
            simp [step2, read_inbox2_some n hg]] at hb'
          simp only at hb'
          rw [dictGet_insert] at hb'
          by_cases huv : u = v
          · obtain rfl : bx = box := by
              rw [huv] at hb
              exact Option.some.inj (hg.symm.trans hb)
            rw [if_pos huv] at hb'
            obtain rfl : markUnreadUpTo (selectUnread2 n bx).length bx = box' :=
              Option.some.inj hb'
            constructor
            · intro m hm hr
              -- a read message is untouched by the marking walk
              obtain ⟨i, hi, rfl⟩ := List.mem_iff_get.mp hm
              have hi' : i < (markUnreadUpTo (selectUnread2 n bx).length bx).length := by
                rw [markUnreadUpTo_length]; exact i.2
              rcases markUnreadUpTo_get (selectUnread2 n bx).length bx i i.2 hi' with
                hcase | hcase
              · exact ⟨_, List.get_mem _ _ _, by rw [hcase], by rw [hcase],
                  by rw [hcase], by rw [hcase]; exact hr⟩
              · exact ⟨_, List.get_mem _ _ _, by rw [hcase], by rw [hcase],
                  by rw [hcase], by rw [hcase]⟩
            · intro hne
              exact absurd (huv ▸ rfl) (hne n)
          · rw [if_neg huv] at hb'
            obtain rfl : box = box' := Option.some.inj (hb.symm.trans hb')
            exact ⟨fun m hm hr => ⟨m, hm, rfl, rfl, rfl, hr⟩, fun _ m hm => hm⟩
  | search v p =>
      obtain rfl : box = box' := Option.some.inj (hb.symm.trans hb')
      exact ⟨fun m hm hr => ⟨m, hm, rfl, rfl, rfl, hr⟩, fun _ m hm => hm⟩

theorem read_flip_selected1 {po po' : PostOffice} {u : String} {n : Int}
    {res box box' : List Msg}
    (h : po.read_inbox u n = some (po', res))
    (hb : dictGet po.boxes u = some box)
    (hb' : dictGet po'.boxes u = some box')
    (i : Nat) (hi : i < box.length) (hi' : i < box'.length)
    (hunread : (box.get ⟨i, hi⟩).read = false)
    (hflip : (box'.get ⟨i, hi'⟩).read = true) :
    (box.get ⟨i, hi⟩).id ∈ res.map Msg.id := by
  rw [read_inbox_some n hb] at h
  simp only [Option.some.injEq, Prod.mk.injEq] at h
  obtain ⟨hpo, hres⟩ := h
  have hb2 : dictGet po'.boxes u =
      some (markByIds ((selectUnread n box).map Msg.id) box) := by
    rw [← hpo]; exact dictGet_insert_self _ _ _
  have hbb : box' = markByIds ((selectUnread n box).map Msg.id) box :=
    Option.some.inj (hb'.symm.trans hb2)
  subst hbb
  have e : (markByIds ((selectUnread n box).map Msg.id) box).get ⟨i, hi'⟩ =
      if ((selectUnread n box).map Msg.id).contains (box.get ⟨i, hi⟩).id
      then { box.get ⟨i, hi⟩ with read := true } else box.get ⟨i, hi⟩ := by
    simp [markByIds, List.get_map]
  rw [e] at hflip
  cases hc : ((selectUnread n box).map Msg.id).contains (box.get ⟨i, hi⟩).id with
  | false =>
      rw [hc] at hflip
      simp only [Bool.false_eq_true, if_false] at hflip
      exact absurd (hunread.symm.trans hflip) Bool.false_ne_true
  | true =>
      have hmem : (box.get ⟨i, hi⟩).id ∈ (selectUnread n box).map Msg.id :=
        List.elem_iff.mp hc
      rw [← hres]
      simpa [List.map_map, Function.comp] using hmem

theorem markUnreadUpTo_flip : ∀ (k : Nat) (box : List Message2) (i : Nat)
    (hi : i < box.length) (hi' : i < (markUnreadUpTo k box).length),
    (box.get ⟨i, hi⟩).message_read = false →
    ((markUnreadUpTo k box).get ⟨i, hi'⟩).message_read = true →
    box.get ⟨i, hi⟩ ∈ (box.filter (fun x => x.message_read == false)).take k := by
  intro k box
  induction box generalizing k with
  | nil => intro i hi; exact absurd hi (by simp)
  | cons x rest ih =>
      intro i hi hi' hunread hflip
      cases hx : x.message_read
      · cases k with
        | zero =>
            have e : markUnreadUpTo 0 (x :: rest) = x :: rest := by
              simp [markUnreadUpTo, hx]
            rw [List.get_of_eq e ⟨i, hi'⟩] at hflip
            have : (x :: rest).get ⟨i, _⟩ = (x :: rest).get ⟨i, hi⟩ := rfl
            rw [this] at hflip
            exact absurd (hunread.symm.trans hflip) Bool.false_ne_true
        | succ j =>
            have e : markUnreadUpTo (j + 1) (x :: rest) =
                { x with message_read := true } :: markUnreadUpTo j rest :=
              markUnreadUpTo_succ_unread j x rest hx
            rw [List.filter_cons]
            simp only [hx, beq_self_eq_true, if_true, List.take_succ_cons]
            cases i with
            | zero => exact List.mem_cons_self _ _
            | succ i' =>
                have h2 : i' < rest.length := by simpa using hi
                have h3 : i' < (markUnreadUpTo j rest).length := by
                  rw [markUnreadUpTo_length]; exact h2
                rw [List.get_of_eq e ⟨i' + 1, hi'⟩] at hflip
                have hflip' : ((markUnreadUpTo j rest).get ⟨i', h3⟩).message_read = true := by
                  simpa using hflip
                have hunread' : (rest.get ⟨i', h2⟩).message_read = false := by
                  simpa using hunread
                exact List.mem_cons_of_mem _ (ih j i' h2 h3 hunread' hflip')
      · have e : markUnreadUpTo k (x :: rest) = x :: markUnreadUpTo k rest := by
          simp [markUnreadUpTo, hx]
        rw [List.filter_cons]
        simp only [hx, show (true == false) = false from rfl, Bool.false_eq_true, if_false]
        cases i with
        | zero =>
            have hx0 : (x :: rest).get ⟨0, hi⟩ = x := rfl
            rw [hx0] at hunread
            exact absurd (hunread.symm.trans hx) Bool.false_ne_true
        | succ i' =>
            have h2 : i' < rest.length := by simpa using hi
            have h3 : i' < (markUnreadUpTo k rest).length := by
              rw [markUnreadUpTo_length]; exact h2
            rw [List.get_of_eq e ⟨i' + 1, hi'⟩] at hflip
            have hflip' : ((markUnreadUpTo k rest).get ⟨i', h3⟩).message_read = true := by
              simpa using hflip
            have hunread' : (rest.get ⟨i', h2⟩).message_read = false := by
              simpa using hunread
            exact ih k i' h2 h3 hunread' hflip'

theorem read_flip_selected2 {po po' : PostOffice2} {u : String} {n : Int}
    {res : List String} {box box' : List Message2}
    (h : po.read_inbox u n = some (po', res))
    (hb : dictGet po.boxes u = some box)
    (hb' : dictGet po'.boxes u = some box')
    (i : Nat) (hi : i < box.length) (hi' : i < box'.length)
    (hunread : (box.get ⟨i, hi⟩).message_read = false)
    (hflip : (box'.get ⟨i, hi'⟩).message_read = true) :
    Message2.get_details { box.get ⟨i, hi⟩ with message_read := true } ∈ res := by
  rw [read_inbox2_some n hb] at h
  simp only [Option.some.injEq, Prod.mk.injEq] at h
  obtain ⟨hpo, hres⟩ := h
  have hb2 : dictGet po'.boxes u =
      some (markUnreadUpTo (selectUnread2 n box).length box) := by
    rw [← hpo]; exact dictGet_insert_self _ _ _
  have hbb : box' = markUnreadUpTo (selectUnread2 n box).length box :=
    Option.some.inj (hb'.symm.trans hb2)
  subst hbb
  have hsel : box.get ⟨i, hi⟩ ∈
      (box.filter (fun x => x.message_read == false)).take
        (selectUnread2 n box).length :=
    markUnreadUpTo_flip _ box i hi hi' hunread hflip
  rw [selectUnread2_take] at hsel
  rw [← hres]
  exact List.mem_map_of_mem _ (List.mem_map_of_mem _ hsel)

/-- C8: each message's read state is one-directional.  Over any single
operation (send, read or search): every message stored as read keeps a
successor with the same id, body and sender that is still read (no
operation ever switches a read flag back off); any operation that is
not a `read_inbox` on the owning user leaves every stored message
untouched; and within a successful `read_inbox`, a message whose flag
flips from unread to read is one the call selected — its id (dict
implementation) or its rendered snapshot (object implementation) is in
the returned result.  Both implementations. -/
theorem claim8_read_flag_one_directional :
    (∀ (po : PostOffice) (op : Op) (u : String) (box box' : List Msg),
        dictGet po.boxes u = some box →
        dictGet (step1 po op).boxes u = some box' →
          (∀ m ∈ box, m.read = true →
            ∃ m' ∈ box', m'.id = m.id ∧ m'.body = m.body ∧ m'.sender = m.sender ∧
              m'.read = true) ∧
          ((∀ k, op ≠ Op.read u k) → ∀ m ∈ box, m ∈ box')) ∧
    (∀ (po po' : PostOffice) (u : String) (n : Int) (res box box' : List Msg),
        po.read_inbox u n = some (po', res) →
        dictGet po.boxes u = some box →
        dictGet po'.boxes u = some box' →
        ∀ (i : Nat) (hi : i < box.length) (hi' : i < box'.length),
          (box.get ⟨i, hi⟩).read = false →
          (box'.get ⟨i, hi'⟩).read = true →
            (box.get ⟨i, hi⟩).id ∈ res.map Msg.id) ∧
    (∀ (po : PostOffice2) (op : Op) (u : String) (box box' : List Message2),
        dictGet po.boxes u = some box →
        dictGet (step2 po op).boxes u = some box' →
          (∀ m ∈ box, m.message_read = true →
            ∃ m' ∈ box', m'.message_id = m.message_id ∧
              m'.message_body = m.message_body ∧
              m'.message_sender = m.message_sender ∧ m'.message_read = true) ∧
          ((∀ k, op ≠ Op.read u k) → ∀ m ∈ box, m ∈ box')) ∧
    (∀ (po po' : PostOffice2) (u : String) (n : Int) (res : List String)
        (box box' : List Message2),
        po.read_inbox u n = some (po', res) →
        dictGet po.boxes u = some box →
        dictGet po'.boxes u = some box' →
        ∀ (i : Nat) (hi : i < box.length) (hi' : i < box'.length),
          (box.get ⟨i, hi⟩).message_read = false →
          (box'.get ⟨i, hi'⟩).message_read = true →
            Message2.get_details { box.get ⟨i, hi⟩ with message_read := true } ∈ res) :=
  ⟨fun po op u box box' hb hb' => step1_box_rel po op u box box' hb hb',
   fun _ _ _ _ _ _ _ h hb hb' i hi hi' hu hf =>
     read_flip_selected1 h hb hb' i hi hi' hu hf,
   fun po op u box box' hb hb' => step2_box_rel po op u box box' hb hb',
   fun _ _ _ _ _ _ _ h hb hb' i hi hi' hu hf =>
     read_flip_selected2 h hb hb' i hi hi' hu hf⟩

def w8box : List Msg := [{ id := 1, body := "m", sender := "s", read := false }]
def w8boxR : List Msg := [{ id := 1, body := "m", sender := "s", read := true }]
def w8po : PostOffice := { message_id := 1, read := false, boxes := [("a", w8box)] }
def w8poR : PostOffice := { message_id := 1, read := false, boxes := [("a", w8boxR)] }
def w8box2 : List Message2 :=
  [{ message_id := 1, message_body := "m", message_sender := "s", message_read := false }]
def w8box2R : List Message2 :=
  [{ message_id := 1, message_body := "m", message_sender := "s", message_read := true }]
def w8po2 : PostOffice2 := { message_id := 1, boxes := [("a", w8box2)] }
def w8po2R : PostOffice2 := { message_id := 1, boxes := [("a", w8box2R)] }

/-- Witness for C8: a one-message mailbox; the full read flips the
flag and indeed reports the flipped message; a search step moves no
message. -/
theorem claim8_read_flag_one_directional_witness :
    ((w8box.get ⟨0, by decide⟩).id ∈ w8boxR.map Msg.id) ∧
    (Message2.get_details { w8box2.get ⟨0, by decide⟩ with message_read := true } ∈
      [Message2.get_details { message_id := 1, message_body := "m",
                              message_sender := "s", message_read := true }]) ∧
    (∀ m ∈ w8boxR, m ∈ w8boxR) :=
  ⟨claim8_read_flag_one_directional.2.1 w8po w8poR "a" 0 w8boxR w8box w8boxR
     (by decide) (by decide) (by decide) 0 (by decide) (by decide) (by decide) (by decide),
   claim8_read_flag_one_directional.2.2.2 w8po2 w8po2R "a" 0
     [Message2.get_details { message_id := 1, message_body := "m",
                             message_sender := "s", message_read := true }]
     w8box2 w8box2R
     (by decide) (by decide) (by decide) 0 (by decide) (by decide) (by decide) (by decide),
   (claim8_read_flag_one_directional.1 w8poR (Op.search "a" "x") "a" w8boxR w8boxR
     (by decide) (by decide)).2 (fun k hk => Op.noConfusion hk)⟩

/-! ## C9: the two implementations are behaviourally equivalent -/

theorem poConvert_boxes_get (po : PostOffice) (u : String) :
    dictGet (poConvert po).boxes u =
      (dictGet po.boxes u).map (List.map Msg.toMessage2) := by
  show dictGet (po.boxes.map (fun p => (p.1, p.2.map Msg.toMessage2))) u = _
  exact dictGet_map_values _ _ _

theorem filter_unread_map_conv (box : List Msg) :
    (box.map Msg.toMessage2).filter (fun message => message.message_read == false) =
      (box.filter (fun message => message.read == false)).map Msg.toMessage2 := by
  induction box with
  | nil => rfl
  | cons x rest ih =>
      rw [List.map_cons, List.filter_cons, List.filter_cons]
      cases hx : x.read
      · simp only [Msg.toMessage2, hx, beq_self_eq_true, if_true, List.map_cons]
        rw [ih]
      · simp only [Msg.toMessage2, hx, show (true == false) = false from rfl,
          Bool.false_eq_true, if_false]
        exact ih

theorem filter_body_map_conv (p : String) (box : List Msg) :
    (box.map Msg.toMessage2).filter
        (fun message => strContains message.message_body p) =
      (box.filter (fun message => strContains message.body p)).map Msg.toMessage2 := by
  induction box with
  | nil => rfl
  | cons x rest ih =>
      rw [List.map_cons, List.filter_cons, List.filter_cons]
      cases hc : strContains x.body p
      · simp only [Msg.toMessage2, hc, Bool.false_eq_true, if_false]
        exact ih
      · simp only [Msg.toMessage2, hc, if_true, List.map_cons]
        rw [ih]

theorem selectUnread_eq_take (n : Int) (box : List Msg) :
    selectUnread n box = (box.filter (fun m => m.read == false)).take
      (if n > 0 then n.toNat else (box.filter (fun m => m.read == false)).length) := by
  by_cases hn : n > 0
  · rw [selectUnread_pos n hn]
    simp [hn]
  · rw [selectUnread_nonpos n (by omega)]
    simp [hn, List.take_length]

theorem selectUnread2_eq_take (n : Int) (box : List Message2) :
    selectUnread2 n box = (box.filter (fun m => m.message_read == false)).take
      (if n > 0 then n.toNat
       else (box.filter (fun m => m.message_read == false)).length) := by
  by_cases hn : n > 0
  · rw [selectUnread2_pos n hn]
    simp [hn]
  · rw [selectUnread2_nonpos n (by omega)]
    simp [hn, List.take_length]

theorem selectUnread2_map_conv (n : Int) (box : List Msg) :
    selectUnread2 n (box.map Msg.toMessage2) =
      (selectUnread n box).map Msg.toMessage2 := by
  rw [selectUnread2_eq_take, selectUnread_eq_take, filter_unread_map_conv,
    List.map_take, List.length_map]

theorem markByIds_map_id (ids : List Nat) (box : List Msg) :
    (markByIds ids box).map Msg.id = box.map Msg.id := by
  unfold markByIds
  rw [List.map_map]
  apply List.map_congr_left
  intro m hm
  by_cases hc : m.id ∈ ids
  · simp [Function.comp, hc]
  · simp [Function.comp, hc]

/-- The crux of the equivalence: on a box whose ids are duplicate-free,
the object implementation's positional marking walk agrees with the
dict implementation's id-scan marking, for the selection consisting of
the first `K` unread messages. -/
theorem mark_equiv : ∀ (box : List Msg) (K : Nat), (box.map Msg.id).Nodup →
    markUnreadUpTo (((box.filter (fun m => m.read == false)).take K).length)
        (box.map Msg.toMessage2) =
      (markByIds (((box.filter (fun m => m.read == false)).take K).map Msg.id)
        box).map Msg.toMessage2 := by
  intro box
  induction box with
  | nil => intro K h; rfl
  | cons x rest ih =>
      intro K hnodup
      rw [List.map_cons] at hnodup
      obtain ⟨hxnot, hrest⟩ := List.nodup_cons.mp hnodup
      cases hx : x.read
      · -- x unread
        rw [List.filter_cons]
        simp only [hx, beq_self_eq_true, if_true]
        cases K with
        | zero =>
            simp only [List.take_zero, List.length_nil, List.map_nil,
              markUnreadUpTo_zero, markByIds_nil]
        | succ j =>
            rw [List.take_succ_cons, List.length_cons, List.map_cons, List.map_cons]
            rw [markUnreadUpTo_succ_unread _ _ _ (by simp [Msg.toMessage2, hx])]
            have htail : markByIds
                (x.id :: ((rest.filter (fun m => m.read == false)).take j).map Msg.id)
                rest =
                markByIds
                  (((rest.filter (fun m => m.read == false)).take j).map Msg.id)
                  rest := by
              unfold markByIds
              apply List.map_congr_left
              intro y hy
              have hne' : y.id ≠ x.id := fun he =>
                hxnot (he ▸ List.mem_map_of_mem Msg.id hy)
              simp [List.contains_cons, hne']
            show _ = (markByIds _ (x :: rest)).map Msg.toMessage2
            unfold markByIds
            rw [List.map_cons, List.map_cons]
            have hhead : (if (x.id ::
                ((rest.filter (fun m => m.read == false)).take j).map Msg.id).contains
                  x.id then { x with read := true } else x) = { x with read := true } := by
              simp [List.contains_cons]
            rw [hhead]
            have htail' := htail
            unfold markByIds at htail'
            rw [htail']
            have := ih j hrest
            unfold markByIds at this
            rw [← this]
            rfl
      · -- x read
        rw [List.filter_cons]
        simp only [hx, show (true == false) = false from rfl, Bool.false_eq_true,
          if_false]
        have hxid : ∀ K', x.id ∉
            (((rest.filter (fun m => m.read == false)).take K').map Msg.id) := by
          intro K' hmem
          obtain ⟨y, hy, hyid⟩ := List.mem_map.mp hmem
          have hy1 : y ∈ rest.filter (fun m => m.read == false) :=
            (List.take_sublist _ _).subset hy
          have hy2 : y ∈ rest := (List.filter_sublist rest).subset hy1
          exact hxnot (hyid ▸ List.mem_map_of_mem Msg.id hy2)
        rw [List.map_cons]
        rw [show markUnreadUpTo
            (((rest.filter (fun m => m.read == false)).take K).length)
            (Msg.toMessage2 x :: rest.map Msg.toMessage2) =
          Msg.toMessage2 x :: markUnreadUpTo
            (((rest.filter (fun m => m.read == false)).take K).length)
            (rest.map Msg.toMessage2) by
          simp [markUnreadUpTo, Msg.toMessage2, hx]]
        show _ = (markByIds _ (x :: rest)).map Msg.toMessage2
        unfold markByIds
        rw [List.map_cons, List.map_cons]
        have hhead : (if (((rest.filter (fun m => m.read == false)).take K).map
            Msg.id).contains x.id then { x with read := true } else x) = x := by
          have : (((rest.filter (fun m => m.read == false)).take K).map
              Msg.id).contains x.id = false := by
            cases hc : (((rest.filter (fun m => m.read == false)).take K).map
                Msg.id).contains x.id
            · rfl
            · exact absurd (List.elem_iff.mp hc) (hxid K)
          simp only [this, Bool.false_eq_true, if_false]
        rw [hhead]
        have := ih K hrest
        unfold markByIds at this
        rw [← this]

theorem send_equiv (po : PostOffice) (hread : po.read = false)
    (s r b : String) (urg : Bool) :
    (poConvert po).send_message s r b urg =
      (po.send_message s r b urg).map (fun x => (poConvert x.1, x.2)) := by
  cases hg : dictGet po.boxes r with
  | none =>
      rw [send_message_none s b urg hg,
        send_message2_none s b urg (by rw [poConvert_boxes_get, hg]; rfl)]
      rfl
  | some box =>
      have hg2 : dictGet (poConvert po).boxes r = some (box.map Msg.toMessage2) := by
        rw [poConvert_boxes_get, hg]; rfl
      rw [send_message_some s b urg hg, send_message2_some s b urg hg2]
      simp only [Option.map_some']
      have hnb : (if urg then freshMsg2 (poConvert po) s b :: box.map Msg.toMessage2
          else box.map Msg.toMessage2 ++ [freshMsg2 (poConvert po) s b]) =
          (if urg then freshMsg po s b :: box
           else box ++ [freshMsg po s b]).map Msg.toMessage2 := by
        cases urg <;>
          simp [freshMsg, freshMsg2, Message2.make, Msg.toMessage2, poConvert, hread]
      rw [hnb]
      have hboxes : dictInsert (poConvert po).boxes r
          ((if urg then freshMsg po s b :: box
            else box ++ [freshMsg po s b]).map Msg.toMessage2) =
          (dictInsert po.boxes r (if urg then freshMsg po s b :: box
            else box ++ [freshMsg po s b])).map
            (fun p => (p.1, p.2.map Msg.toMessage2)) :=
        dictInsert_map_values (List.map Msg.toMessage2) po.boxes r _
      rw [show (poConvert po).boxes =
          po.boxes.map (fun p => (p.1, p.2.map Msg.toMessage2)) from rfl] at hboxes
      simp only [poConvert]
      rw [← hboxes]

theorem read_equiv (po : PostOffice) (hWF : WF1 po) (u : String) (n : Int) :
    (poConvert po).read_inbox u n =
      (po.read_inbox u n).map
        (fun x => (poConvert x.1,
          x.2.map (fun m => (Msg.toMessage2 m).get_details))) := by
  cases hg : dictGet po.boxes u with
  | none =>
      rw [read_inbox_none n hg,
        read_inbox2_none n (by rw [poConvert_boxes_get, hg]; rfl)]
      rfl
  | some box =>
      have hg2 : dictGet (poConvert po).boxes u = some (box.map Msg.toMessage2) := by
        rw [poConvert_boxes_get, hg]; rfl
      have hnodup : (box.map Msg.id).Nodup := (hWF.2 (u, box) (dictGet_mem hg)).1
      rw [read_inbox_some n hg, read_inbox2_some n hg2]
      simp only [Option.map_some']
      have hsel : selectUnread2 n (box.map Msg.toMessage2) =
          (selectUnread n box).map Msg.toMessage2 := selectUnread2_map_conv n box
      have hstate : markUnreadUpTo (selectUnread2 n (box.map Msg.toMessage2)).length
          (box.map Msg.toMessage2) =
          (markByIds ((selectUnread n box).map Msg.id) box).map Msg.toMessage2 := by
        rw [hsel, List.length_map, selectUnread_eq_take]
        rw [show ((box.filter (fun m => m.read == false)).take
            (if n > 0 then n.toNat
             else (box.filter (fun m => m.read == false)).length)).map Msg.id =
          (selectUnread n box).map Msg.id by rw [← selectUnread_eq_take]] at *
        rw [selectUnread_eq_take]
        exact mark_equiv box _ hnodup
      have hres : ((selectUnread2 n (box.map Msg.toMessage2)).map
          (fun m => { m with message_read := true })).map Message2.get_details =
          ((selectUnread n box).map (fun m => { m with read := true })).map
            (fun m => (Msg.toMessage2 m).get_details) := by
        rw [hsel]
        simp [List.map_map, Function.comp, Msg.toMessage2]
      rw [hstate, hres]
      have hboxes : dictInsert (poConvert po).boxes u
          ((markByIds ((selectUnread n box).map Msg.id) box).map Msg.toMessage2) =
          (dictInsert po.boxes u
            (markByIds ((selectUnread n box).map Msg.id) box)).map
            (fun p => (p.1, p.2.map Msg.toMessage2)) :=
        dictInsert_map_values (List.map Msg.toMessage2) po.boxes u _
      simp only [poConvert]
      rw [show (poConvert po).boxes =
          po.boxes.map (fun p => (p.1, p.2.map Msg.toMessage2)) from rfl] at hboxes
      rw [← hboxes]

theorem search_equiv (po : PostOffice) (u p : String) :
    (poConvert po).search_inbox u p =
      (po.search_inbox u p).map
        (List.map (fun m => (Msg.toMessage2 m).get_details)) := by
  cases hg : dictGet po.boxes u with
  | none =>
      rw [search_inbox_none p hg,
        search_inbox2_none p (by rw [poConvert_boxes_get, hg]; rfl)]
      rfl
  | some box =>
      have hg2 : dictGet (poConvert po).boxes u = some (box.map Msg.toMessage2) := by
        rw [poConvert_boxes_get, hg]; rfl
      rw [search_inbox_some p hg, search_inbox2_some p hg2]
      simp only [Option.map_some']
      rw [filter_body_map_conv]
      simp [List.map_map, Function.comp]

theorem foldl_insert_const_values {α : Type} (v : α) (users : List String) :
    ∀ (d : List (String × α)) (pq : String × α),
      pq ∈ users.foldl (fun d user => dictInsert d user v) d → pq ∈ d ∨ pq.2 = v := by
  induction users with
  | nil => intro d pq h; left; simpa using h
  | cons w rest ih =>
      intro d pq h
      rcases ih (dictInsert d w v) pq h with h' | h'
      · rcases mem_dictInsert h' with h'' | h''
        · right; rw [h'']
        · left; exact h''
      · right; exact h'

theorem WF1_init (users : List String) : WF1 (PostOffice.init users) := by
  refine ⟨rfl, ?_⟩
  intro pq hpq
  have hempty : pq.2 = [] := by
    rcases foldl_insert_const_values ([] : List Msg) users [] pq hpq with h | h
    · simp at h
    · exact h
  rw [hempty]
  exact ⟨List.nodup_nil, by simp⟩

theorem WF1_step (po : PostOffice) (op : Op) (h : WF1 po) : WF1 (step1 po op) := by
  obtain ⟨hread, hboxes⟩ := h
  cases op with
  | send s r b urg =>
      cases hg : dictGet po.boxes r with
      | none =>
          rw [show step1 po (Op.send s r b urg) = po by
            simp [step1, send_message_none s b urg hg]]
          exact ⟨hread, hboxes⟩
      | some bx =>
          rw [show step1 po (Op.send s r b urg) =
              { po with message_id := po.message_id + 1,
                        boxes := dictInsert po.boxes r
                          (if urg then freshMsg po s b :: bx
                           else bx ++ [freshMsg po s b]) } by
            simp [step1, send_message_some s b urg hg]]
          refine ⟨hread, ?_⟩
          intro pq hpq
          simp only at hpq
          rcases mem_dictInsert hpq with h' | h'
          · have hbx := hboxes (r, bx) (dictGet_mem hg)
            have hnotin : po.message_id + 1 ∉ bx.map Msg.id := by
              intro hmem
              obtain ⟨y, hy, hyid⟩ := List.mem_map.mp hmem
              have := hbx.2 y hy
              omega
            rw [h']
            constructor
            · cases urg
              · simp only [if_false, Bool.false_eq_true, List.map_append,
                  List.map_cons, List.map_nil]
                rw [List.nodup_append]
                exact ⟨hbx.1, List.nodup_singleton _,
                  by simpa [freshMsg, List.disjoint_singleton] using
                    fun hmem => hnotin hmem⟩
              · simp only [if_true, List.map_cons]
                rw [List.nodup_cons]
                exact ⟨by simpa [freshMsg] using hnotin, hbx.1⟩
            · intro m hm
              simp only at hm ⊢
              have : m ∈ bx ∨ m = freshMsg po s b := by
                cases urg
                · simp at hm
                  rcases hm with hm | hm
                  · left; exact hm
                  · right; exact hm
                · simp at hm
                  rcases hm with hm | hm
                  · right; exact hm
                  · left; exact hm
              rcases this with hm' | hm'
              · have := hbx.2 m hm'
                omega
              · rw [hm']
                exact le_refl _
          · have := hboxes pq h'
            exact ⟨this.1, fun m hm => le_trans (this.2 m hm) (by simp)⟩
  | read v n =>
      cases hg : dictGet po.boxes v with
      | none =>
          rw [show step1 po (Op.read v n) = po by
            simp [step1, read_inbox_none n hg]]
          exact ⟨hread, hboxes⟩
      | some bx =>
          rw [show step1 po (Op.read v n) =
              { po with boxes := dictInsert po.boxes v
                          (markByIds ((selectUnread n bx).map Msg.id) bx) } by
            simp [step1, read_inbox_some n hg]]
          refine ⟨hread, ?_⟩
          intro pq hpq
          simp only at hpq
          rcases mem_dictInsert hpq with h' | h'
          · have hbx := hboxes (v, bx) (dictGet_mem hg)
            rw [h']
            constructor
            · simp only
              rw [markByIds_map_id]
              exact hbx.1
            · intro m hm
              simp only at hm
              obtain ⟨y, hy, rfl⟩ := List.mem_map.mp hm
              have := hbx.2 y hy
              cases hc : ((selectUnread n bx).map Msg.id).contains y.id <;> simpa [hc]
          · exact hboxes pq h'
  | search v p =>
      exact ⟨hread, hboxes⟩

theorem step_equiv (po : PostOffice) (h : WF1 po) (op : Op) :
    step2 (poConvert po) op = poConvert (step1 po op) ∧
    obs2 (poConvert po) op = obs1 po op := by
  cases op with
  | send s r b urg =>
      have he := send_equiv po h.1 s r b urg
      constructor
      · simp only [step1, step2, he]
        cases hx : po.send_message s r b urg with
        | none => rfl
        | some pr => rfl
      · simp only [obs1, obs2, he]
        cases hx : po.send_message s r b urg with
        | none => rfl
        | some pr => rfl
  | read u n =>
      have he := read_equiv po h u n
      constructor
      · simp only [step1, step2, he]
        cases hx : po.read_inbox u n with
        | none => rfl
        | some pr => rfl
      · simp only [obs1, obs2, he]
        cases hx : po.read_inbox u n with
        | none => rfl
        | some pr => rfl
  | search u p =>
      have he := search_equiv po u p
      constructor
      · rfl
      · simp only [obs1, obs2, he]
        cases hx : po.search_inbox u p with
        | none => rfl
        | some l => rfl

theorem run_trace_equiv (ops : List Op) : ∀ po : PostOffice, WF1 po →
    run2 (poConvert po) ops = poConvert (run1 po ops) ∧
    traceObs2 (poConvert po) ops = traceObs1 po ops := by
  induction ops with
  | nil => intro po h; exact ⟨rfl, rfl⟩
  | cons op rest ih =>
      intro po h
      obtain ⟨hstep, hobs⟩ := step_equiv po h op
      obtain ⟨hrun, htr⟩ := ih (step1 po op) (WF1_step po op h)
      constructor
      · show run2 (step2 (poConvert po) op) rest = _
        rw [hstep]
        exact hrun
      · show obs2 (poConvert po) op :: traceObs2 (step2 (poConvert po) op) rest = _
        rw [hobs, hstep, htr]
        rfl

theorem foldl_insert_nil_map {α β : Type} (f : α → β) (users : List String) :
    ∀ d : List (String × List α),
      (users.foldl (fun d user => dictInsert d user []) d).map
          (fun p => (p.1, p.2.map f)) =
        users.foldl (fun d user => dictInsert d user [])
          (d.map (fun p => (p.1, p.2.map f))) := by
  induction users with
  | nil => intro d; rfl
  | cons w rest ih =>
      intro d
      simp only [List.foldl_cons]
      rw [ih (dictInsert d w [])]
      congr 1
      have := dictInsert_map_values (List.map f) d w []
      simpa using this.symm

theorem poConvert_init (users : List String) :
    poConvert (PostOffice.init users) = PostOffice2.init users := by
  show ({ message_id := 0,
          boxes := (users.foldl (fun d user => dictInsert d user []) []).map
            (fun p => (p.1, p.2.map Msg.toMessage2)) } : PostOffice2) = _
  rw [foldl_insert_nil_map Msg.toMessage2 users []]
  rfl

/-- C9: the dict-based implementation (`turtle_sent.py`) and the
object-based implementation (`turtle_sent_two.py`) are behaviourally
equivalent.  For every username list and every call sequence, run from
freshly constructed offices: the final states correspond field for
field under the message translation `Msg.toMessage2` (same counter,
same mailboxes in the same order with the same ids, bodies, senders and
read flags), and the observation traces coincide — both implementations
raise on exactly the same calls, return the same ids from
`send_message`, and select the same messages in the same order from
`read_inbox` and `search_inbox` (the object implementation renders each
selected message's detail snapshot; the trace compares the dict
implementation's selections under the same rendering). -/
theorem claim9_implementations_equivalent (users : List String) (ops : List Op) :
    run2 (PostOffice2.init users) ops = poConvert (run1 (PostOffice.init users) ops) ∧
    traceObs2 (PostOffice2.init users) ops = traceObs1 (PostOffice.init users) ops := by
  have h := run_trace_equiv ops (PostOffice.init users) (WF1_init users)
  rw [poConvert_init] at h
  exact h

/-! ## C4 (strengthened): full characterisation of the read-limit marking -/

/-- The unread messages remaining after the object implementation's
marking walk are exactly the original unread sequence without its first
`k` elements. -/
theorem markUnreadUpTo_filter_drop : ∀ (k : Nat) (box : List Message2),
    (markUnreadUpTo k box).filter (fun m => m.message_read == false) =
      (box.filter (fun m => m.message_read == false)).drop k := by
  intro k box
  induction box generalizing k with
  | nil => simp [markUnreadUpTo]
  | cons x rest ih =>
      cases hx : x.message_read
      · cases k with
        | zero =>
            rw [markUnreadUpTo_zero]
            simp
        | succ j =>
            rw [markUnreadUpTo_succ_unread j x rest hx]
            rw [List.filter_cons, List.filter_cons]
            simp only [hx, beq_self_eq_true, if_true,
              show (true == false) = false from rfl, Bool.false_eq_true, if_false]
            rw [List.drop_succ_cons]
            exact ih j
      · rw [show markUnreadUpTo k (x :: rest) = x :: markUnreadUpTo k rest by
          simp [markUnreadUpTo, hx]]
        rw [List.filter_cons, List.filter_cons]
        simp only [hx, show (true == false) = false from rfl, Bool.false_eq_true,
          if_false]
        exact ih k

theorem drop_min_length {α : Type} (l : List α) (K : Nat) :
    l.drop (min K l.length) = l.drop K := by
  by_cases h : K ≤ l.length
  · rw [min_eq_left h]
  · rw [min_eq_right (by omega), List.drop_length l,
      List.drop_eq_nil_of_le (by omega : l.length ≤ K)]

theorem toMessage2_injective : Function.Injective Msg.toMessage2 := by
  intro a b h
  cases a
  cases b
  simp only [Msg.toMessage2, Message2.mk.injEq] at h
  obtain ⟨h1, h2, h3, h4⟩ := h
  simp [h1, h2, h3, h4]

/-- Dict-implementation counterpart of `markUnreadUpTo_filter_drop`:
under duplicate-free ids, the id-scan marking of the first `K` unread
messages leaves exactly the unread sequence without its first `K`
elements.  Proved by transport along the implementation equivalence
(`mark_equiv`). -/
theorem markByIds_filter_drop (box : List Msg) (K : Nat)
    (hnodup : (box.map Msg.id).Nodup) :
    (markByIds (((box.filter (fun m => m.read == false)).take K).map Msg.id)
        box).filter (fun m => m.read == false) =
      (box.filter (fun m => m.read == false)).drop K := by
  apply List.map_injective_iff.mpr toMessage2_injective
  rw [← filter_unread_map_conv, ← mark_equiv box K hnodup,
    markUnreadUpTo_filter_drop, filter_unread_map_conv, ← List.map_drop,
    List.length_take, drop_min_length]

/-- C4: for every registered user, `read_inbox` with `limit > 0` returns
and marks read only the first `limit` currently-unread messages in
mailbox order, while `limit <= 0` returns and marks read all unread
messages.  In general, for any successful call: the returned snapshots
are exactly the first `limit` unread messages of the mailbox in order
(all unread messages when `limit <= 0`), each with `read = true`; and
the stored mailbox afterwards has the same length, each position holds
the same message unchanged or with only its read flag switched on, and
the messages still unread are exactly the original unread sequence with
its first `limit` elements removed — so exactly the first `limit`
(respectively all) unread messages were marked, and nothing else
changed.  The scenario follows: with unread messages `[a, b, c]`,
`read_inbox(user, 1)` returns only `a`, marks only `a` (the rest of the
mailbox byte-for-byte unchanged), and a follow-up `read_inbox(user, 0)`
returns `[b, c]`.  Both implementations; the dict implementation marks
by id scan, so its marks-only parts assume the box's ids are
duplicate-free (true of every reachable state), while the object
implementation's marking is positional and needs no such assumption. -/
theorem claim4_read_limit_truncation :
    (∀ (po po' : PostOffice) (u : String) (n : Int) (box res : List Msg),
        dictGet po.boxes u = some box →
        po.read_inbox u n = some (po', res) →
          (0 < n → res = ((box.filter (fun m => m.read == false)).take n.toNat).map
              (fun m => { m with read := true })) ∧
          (n ≤ 0 → res = (box.filter (fun m => m.read == false)).map
              (fun m => { m with read := true })) ∧
          (∀ box', dictGet po'.boxes u = some box' →
            box'.length = box.length ∧
            (∀ i (hi : i < box.length) (hi' : i < box'.length),
              box'.get ⟨i, hi'⟩ = box.get ⟨i, hi⟩ ∨
              box'.get ⟨i, hi'⟩ = { box.get ⟨i, hi⟩ with read := true }) ∧
            ((box.map Msg.id).Nodup →
              box'.filter (fun m => m.read == false) =
                (box.filter (fun m => m.read == false)).drop
                  (if n > 0 then n.toNat
                   else (box.filter (fun m => m.read == false)).length)))) ∧
    (∀ (po : PostOffice) (u : String) (box : List Msg) (a b c : Msg),
        dictGet po.boxes u = some box →
        (box.map Msg.id).Nodup →
        box.filter (fun m => m.read == false) = [a, b, c] →
          ∃ po' l1 l2, box = l1 ++ a :: l2 ∧
            po.read_inbox u 1 = some (po', [{ a with read := true }]) ∧
            dictGet po'.boxes u = some (l1 ++ { a with read := true } :: l2) ∧
            (po'.read_inbox u 0).map Prod.snd =
              some [{ b with read := true }, { c with read := true }]) ∧
    (∀ (po po' : PostOffice2) (u : String) (n : Int) (box : List Message2)
        (res : List String),
        dictGet po.boxes u = some box →
        po.read_inbox u n = some (po', res) →
          (0 < n → res =
            (((box.filter (fun m => m.message_read == false)).take n.toNat).map
              (fun m => { m with message_read := true })).map Message2.get_details) ∧
          (n ≤ 0 → res = ((box.filter (fun m => m.message_read == false)).map
              (fun m => { m with message_read := true })).map Message2.get_details) ∧
          (∀ box', dictGet po'.boxes u = some box' →
            box'.length = box.length ∧
            (∀ i (hi : i < box.length) (hi' : i < box'.length),
              box'.get ⟨i, hi'⟩ = box.get ⟨i, hi⟩ ∨
              box'.get ⟨i, hi'⟩ = { box.get ⟨i, hi⟩ with message_read := true }) ∧
            box'.filter (fun m => m.message_read == false) =
              (box.filter (fun m => m.message_read == false)).drop
                (if n > 0 then n.toNat
                 else (box.filter (fun m => m.message_read == false)).length))) ∧
    (∀ (po : PostOffice2) (u : String) (box : List Message2) (a b c : Message2),
        dictGet po.boxes u = some box →
        box.filter (fun m => m.message_read == false) = [a, b, c] →
          ∃ po' l1 l2, box = l1 ++ a :: l2 ∧
            po.read_inbox u 1 = some (po',
              [Message2.get_details { a with message_read := true }]) ∧
            dictGet po'.boxes u = some (l1 ++ { a with message_read := true } :: l2) ∧
            (po'.read_inbox u 0).map Prod.snd =
              some [Message2.get_details { b with message_read := true },
                    Message2.get_details { c with message_read := true }]) := by
  refine ⟨?_, ?_, ?_, ?_⟩
  · intro po po' u n box res hbox h
    rw [read_inbox_some n hbox] at h
    simp only [Option.some.injEq, Prod.mk.injEq] at h
    obtain ⟨hpo, hres⟩ := h
    refine ⟨?_, ?_, ?_⟩
    · intro hn
      rw [← hres, selectUnread_pos n hn]
    · intro hn
      rw [← hres, selectUnread_nonpos n hn]
    · intro box' hb'
      have hb2 : dictGet po'.boxes u =
          some (markByIds ((selectUnread n box).map Msg.id) box) := by
        rw [← hpo]; exact dictGet_insert_self _ _ _
      obtain rfl : markByIds ((selectUnread n box).map Msg.id) box = box' :=
        Option.some.inj (hb2.symm.trans hb')
      refine ⟨markByIds_length _ _, fun i hi hi' => markByIds_get _ _ i hi hi', ?_⟩
      intro hnodup
      rw [selectUnread_eq_take]
      exact markByIds_filter_drop box _ hnodup
  · intro po u box a b c hbox hnodup hfil
    exact read_limit_scenario1 hbox hnodup hfil
  · intro po po' u n box res hbox h
    rw [read_inbox2_some n hbox] at h
    simp only [Option.some.injEq, Prod.mk.injEq] at h
    obtain ⟨hpo, hres⟩ := h
    refine ⟨?_, ?_, ?_⟩
    · intro hn
      rw [← hres, selectUnread2_pos n hn]
    · intro hn
      rw [← hres, selectUnread2_nonpos n hn]
    · intro box' hb'
      have hb2 : dictGet po'.boxes u =
          some (markUnreadUpTo (selectUnread2 n box).length box) := by
        rw [← hpo]; exact dictGet_insert_self _ _ _
      obtain rfl : markUnreadUpTo (selectUnread2 n box).length box = box' :=
        Option.some.inj (hb2.symm.trans hb')
      refine ⟨markUnreadUpTo_length _ _,
        fun i hi hi' => markUnreadUpTo_get _ box i hi hi', ?_⟩
      rw [markUnreadUpTo_filter_drop, selectUnread2_eq_take, List.length_take]
      exact drop_min_length _ _
  · intro po u box a b c hbox hfil
    exact read_limit_scenario2 hbox hfil

/-- Witness for C4 on a mailbox with three unread messages A, B, C:
`read_inbox(w, 1)` returns exactly the first unread message marked, the
stored box keeps B and C as the remaining unread in order, and the
limit-1 / follow-up limit-0 scenario holds in both implementations. -/
theorem claim4_read_limit_truncation_witness :
    ([{ wMsgA with read := true }] =
      (([wMsgA, wMsgB, wMsgC].filter (fun m => m.read == false)).take
        (1 : Int).toNat).map (fun m => { m with read := true })) ∧
    ([{ wMsgA with read := true }, wMsgB, wMsgC].filter (fun m => m.read == false) =
      ([wMsgA, wMsgB, wMsgC].filter (fun m => m.read == false)).drop
        (if (1 : Int) > 0 then (1 : Int).toNat
         else ([wMsgA, wMsgB, wMsgC].filter (fun m => m.read == false)).length)) ∧
    ([Message2.get_details { wMsg2A with message_read := true }] =
      ((([wMsg2A, wMsg2B, wMsg2C].filter (fun m => m.message_read == false)).take
        (1 : Int).toNat).map (fun m => { m with message_read := true })).map
          Message2.get_details) ∧
    ([{ wMsg2A with message_read := true }, wMsg2B, wMsg2C].filter
        (fun m => m.message_read == false) =
      ([wMsg2A, wMsg2B, wMsg2C].filter (fun m => m.message_read == false)).drop
        (if (1 : Int) > 0 then (1 : Int).toNat
         else ([wMsg2A, wMsg2B, wMsg2C].filter
            (fun m => m.message_read == false)).length)) ∧
    (∃ po' l1 l2, [wMsgA, wMsgB, wMsgC] = l1 ++ wMsgA :: l2 ∧
      wPO.read_inbox "w" 1 = some (po', [{ wMsgA with read := true }]) ∧
      dictGet po'.boxes "w" = some (l1 ++ { wMsgA with read := true } :: l2) ∧
      (po'.read_inbox "w" 0).map Prod.snd =
        some [{ wMsgB with read := true }, { wMsgC with read := true }]) ∧
    (∃ po' l1 l2, [wMsg2A, wMsg2B, wMsg2C] = l1 ++ wMsg2A :: l2 ∧
      wPO2.read_inbox "w" 1 = some (po',
        [Message2.get_details { wMsg2A with message_read := true }]) ∧
      dictGet po'.boxes "w" = some (l1 ++ { wMsg2A with message_read := true } :: l2) ∧
      (po'.read_inbox "w" 0).map Prod.snd =
        some [Message2.get_details { wMsg2B with message_read := true },
              Message2.get_details { wMsg2C with message_read := true }]) :=
  ⟨(claim4_read_limit_truncation.1 wPO
      { message_id := 3, read := false,
        boxes := [("w", [{ wMsgA with read := true }, wMsgB, wMsgC])] }
      "w" 1 [wMsgA, wMsgB, wMsgC] [{ wMsgA with read := true }]
      (by decide) (by decide)).1 (by decide),
   ((claim4_read_limit_truncation.1 wPO
      { message_id := 3, read := false,
        boxes := [("w", [{ wMsgA with read := true }, wMsgB, wMsgC])] }
      "w" 1 [wMsgA, wMsgB, wMsgC] [{ wMsgA with read := true }]
      (by decide) (by decide)).2.2
      [{ wMsgA with read := true }, wMsgB, wMsgC] (by decide)).2.2 (by decide),
   (claim4_read_limit_truncation.2.2.1 wPO2
      { message_id := 3,
        boxes := [("w", [{ wMsg2A with message_read := true }, wMsg2B, wMsg2C])] }
      "w" 1 [wMsg2A, wMsg2B, wMsg2C]
      [Message2.get_details { wMsg2A with message_read := true }]
      (by decide) (by decide)).1 (by decide),
   ((claim4_read_limit_truncation.2.2.1 wPO2
      { message_id := 3,
        boxes := [("w", [{ wMsg2A with message_read := true }, wMsg2B, wMsg2C])] }
      "w" 1 [wMsg2A, wMsg2B, wMsg2C]
      [Message2.get_details { wMsg2A with message_read := true }]
      (by decide) (by decide)).2.2
      [{ wMsg2A with message_read := true }, wMsg2B, wMsg2C] (by decide)).2.2,
   claim4_read_limit_truncation.2.1 wPO "w" [wMsgA, wMsgB, wMsgC] wMsgA wMsgB wMsgC
      (by decide) (by decide) (by decide),
   claim4_read_limit_truncation.2.2.2 wPO2 "w" [wMsg2A, wMsg2B, wMsg2C]
      wMsg2A wMsg2B wMsg2C (by decide) (by decide)⟩
